import Mathlib

/-!
Shallow embedding of the task-orchestration core of the repository
(`src/mcp/orchestrator.py`, `src/mcp/stuck_guard.py`, `src/mcp/cost_governor.py`).

Modelling conventions:
* Python `float` amounts and `time.time()` timestamps are modelled as `ℚ`
  (the claims under study concern only exact comparisons and sums).
* Python `dict` (insertion ordered) is modelled as an association list with
  the same update semantics (assignment keeps the position of an existing key,
  appends otherwise); Python `set` of ids is a duplicate-free list.
* The formatted alert strings appended to `cost_alerts` are modelled as a
  structured `Alert` carrying the same data the format string interpolates;
  the claims only count and classify alerts, never inspect their text.
* `time.time()` is passed explicitly as a `now : ℚ` argument at each call.
-/

set_option maxRecDepth 1024

namespace ProofStamp

/-- Python-dict lookup on an association list. -/
def dictGet {α : Type} (l : List (String × α)) (k : String) : Option α :=
  (l.find? (fun p => p.1 = k)).map (·.2)

/-- Python-dict assignment: overwrite in place if the key exists, append otherwise. -/
def dictSet {α : Type} (l : List (String × α)) (k : String) (v : α) :
    List (String × α) :=
  if l.any (fun p => p.1 = k) then
    l.map (fun p => if p.1 = k then (k, v) else p)
  else l ++ [(k, v)]

/-- Python-dict `del`. -/
def dictDel {α : Type} (l : List (String × α)) (k : String) : List (String × α) :=
  l.filter (fun p => p.1 ≠ k)

/-- Python-set insertion on a duplicate-free list of ids. -/
def setInsert (l : List String) (x : String) : List String :=
  if x ∈ l then l else l ++ [x]

/-- Python-set removal (`remove` / `discard`). -/
def setRemove (l : List String) (x : String) : List String :=
  l.filter (fun y => y ≠ x)

/-! ## Cost governor (`src/mcp/cost_governor.py`) -/

/-- `CostCategory` enum. -/
inductive CostCategory
  | api_calls
  | compute
  | storage
  | bandwidth
  | model_inference
  deriving DecidableEq, Repr

/-- The five members of the enum, in declaration order. -/
def CostCategory.all : List CostCategory :=
  [.api_calls, .compute, .storage, .bandwidth, .model_inference]

/-- `CostEntry` dataclass. -/
structure CostEntry where
  timestamp : ℚ
  category : CostCategory
  amount : ℚ
  description : String
  task_id : Option String
  deriving DecidableEq, Repr

/-- `Budget` dataclass. -/
structure Budget where
  category : CostCategory
  limit : ℚ
  period_seconds : ℚ
  current_usage : ℚ
  last_reset : ℚ
  deriving DecidableEq, Repr

/-- The alert strings appended to `cost_alerts`, abstracted to the data the
format strings interpolate.  `budgetExceeded` is the "BUDGET EXCEEDED" message,
`warning` the 80%-of-budget "WARNING" message, `taskPaused` the message from
`pause_task`. -/
inductive Alert
  | budgetExceeded (category : CostCategory) (amount : ℚ) (remaining : ℚ)
  | warning (category : CostCategory) (usage_percent : ℚ)
  | taskPaused (task_id : String) (reason : String)
  deriving DecidableEq, Repr

/-- Is this alert the 80% `warning` message? -/
def Alert.isWarning : Alert → Bool
  | .warning _ _ => true
  | _ => false

/-- `CostGovernor` state.  `budgets` is keyed by category (a `CostCategory`-indexed
partial map; the Python dict is keyed by the enum member). -/
structure CostGovernor where
  cost_history : List CostEntry
  budgets : CostCategory → Option Budget
  paused_tasks : List String
  cost_alerts : List Alert

/-- `CostGovernor.set_budget`. -/
def set_budget (g : CostGovernor) (now : ℚ) (category : CostCategory)
    (limit : ℚ) (period_seconds : ℚ) : CostGovernor :=
  { g with budgets := fun c =>
      if c = category then
        some { category := category, limit := limit,
               period_seconds := period_seconds,
               current_usage := 0, last_reset := now }
      else g.budgets c }

/-- `CostGovernor.__init__` with the default budget limits, all with an 86400 s
period, seeded at time `now`. -/
def CostGovernor.init (now : ℚ) : CostGovernor :=
  let g0 : CostGovernor :=
    { cost_history := [], budgets := fun _ => none,
      paused_tasks := [], cost_alerts := [] }
  let limits : CostCategory → ℚ := fun c =>
    match c with
    | .api_calls => 100
    | .compute => 50
    | .storage => 10
    | .bandwidth => 25
    | .model_inference => 200
  CostCategory.all.foldl (fun g c => set_budget g now c (limits c) 86400) g0

/-- `CostGovernor._reset_budget_if_needed`: zero the usage and re-stamp
`last_reset` when the period has elapsed. -/
def resetBudgetIfNeeded (g : CostGovernor) (now : ℚ) (category : CostCategory) :
    CostGovernor :=
  match g.budgets category with
  | none => g
  | some budget =>
    if now - budget.last_reset ≥ budget.period_seconds then
      { g with budgets := fun c =>
          if c = category then
            some { budget with current_usage := 0, last_reset := now }
          else g.budgets c }
    else g

/-- `CostGovernor.record_cost`.  Returns the approval boolean and the new state. -/
def record_cost (g : CostGovernor) (now : ℚ) (category : CostCategory)
    (amount : ℚ) (description : String) (task_id : Option String) :
    Bool × CostGovernor :=
  -- Reset budget if period has elapsed
  let g := resetBudgetIfNeeded g now category
  -- Check if adding this cost would exceed budget
  let rejected : Bool :=
    match g.budgets category with
    | some budget => decide (budget.current_usage + amount > budget.limit)
    | none => false
  if rejected then
    match g.budgets category with
    | some budget =>
      let g := { g with cost_alerts := g.cost_alerts ++
        [Alert.budgetExceeded category amount (budget.limit - budget.current_usage)] }
      let g :=
        match task_id with
        | some tid => { g with paused_tasks := setInsert g.paused_tasks tid }
        | none => g
      (false, g)
    | none => (false, g)  -- unreachable: rejected forces a budget to exist
  else
    -- Record the cost
    let entry : CostEntry :=
      { timestamp := now, category := category, amount := amount,
        description := description, task_id := task_id }
    let g := { g with cost_history := g.cost_history ++ [entry] }
    -- Update budget usage
    let g :=
      match g.budgets category with
      | some budget =>
        { g with budgets := fun c =>
            if c = category then
              some { budget with current_usage := budget.current_usage + amount }
            else g.budgets c }
      | none => g
    -- Check for warnings (80% of budget)
    let g :=
      match g.budgets category with
      | some budget =>
        let usage_percent := budget.current_usage / budget.limit * 100
        if 80 ≤ usage_percent ∧ usage_percent < 100 then
          { g with cost_alerts := g.cost_alerts ++
            [Alert.warning category usage_percent] }
        else g
      | none => g
    (true, g)

/-- The dict returned by `check_budget_status` in the non-error case. -/
structure BudgetStatusView where
  category : CostCategory
  limit : ℚ
  current_usage : ℚ
  remaining : ℚ
  usage_percent : ℚ
  period_hours : ℚ
  time_until_reset : ℚ
  deriving DecidableEq, Repr

/-- `CostGovernor.check_budget_status`: applies the lazy reset in place, then
reports the budget's figures.  Returns the view (none for the `{"error": ...}`
dict) together with the post-call state. -/
def check_budget_status (g : CostGovernor) (now : ℚ) (category : CostCategory) :
    Option BudgetStatusView × CostGovernor :=
  match g.budgets category with
  | none => (none, g)
  | some _ =>
    let g := resetBudgetIfNeeded g now category
    match g.budgets category with
    | some budget =>
      (some { category := category
              limit := budget.limit
              current_usage := budget.current_usage
              remaining := budget.limit - budget.current_usage
              usage_percent := budget.current_usage / budget.limit * 100
              period_hours := budget.period_seconds / 3600
              time_until_reset := budget.period_seconds - (now - budget.last_reset) },
       g)
    | none => (none, g)  -- unreachable: the reset never deletes a budget

/-- `CostGovernor.get_total_costs`: sums history entries at or after the cutoff,
optionally filtered by category.  Reads `self.cost_history` only; the state is
returned unchanged, mirroring the method body which performs no assignment. -/
def get_total_costs (g : CostGovernor) (now : ℚ) (category : Option CostCategory)
    (hours_back : Option ℚ) : ℚ × CostGovernor :=
  let cutoff_time : ℚ :=
    match hours_back with
    | some h => now - h * 3600
    | none => 0
  let total := g.cost_history.foldl
    (fun acc entry =>
      if entry.timestamp ≥ cutoff_time ∧
         (category = none ∨ category = some entry.category) then
        acc + entry.amount
      else acc) 0
  (total, g)

/-- `CostGovernor.get_cost_breakdown`: per-category sum of history entries at or
after the cutoff.  No assignment to state. -/
def get_cost_breakdown (g : CostGovernor) (now : ℚ) (hours_back : ℚ) :
    (CostCategory → ℚ) × CostGovernor :=
  let cutoff_time := now - hours_back * 3600
  let breakdown := fun c =>
    g.cost_history.foldl
      (fun acc entry =>
        if entry.timestamp ≥ cutoff_time ∧ entry.category = c then
          acc + entry.amount
        else acc) 0
  (breakdown, g)

/-- `CostGovernor.pause_task`. -/
def pause_task (g : CostGovernor) (task_id : String) (reason : String) :
    CostGovernor :=
  { g with paused_tasks := setInsert g.paused_tasks task_id
           cost_alerts := g.cost_alerts ++ [Alert.taskPaused task_id reason] }

/-- `CostGovernor.resume_task`. -/
def resume_task (g : CostGovernor) (task_id : String) : Bool × CostGovernor :=
  if task_id ∈ g.paused_tasks then
    (true, { g with paused_tasks := setRemove g.paused_tasks task_id })
  else (false, g)

/-- `CostGovernor.is_task_paused`. -/
def is_task_paused (g : CostGovernor) (task_id : String) : Bool :=
  task_id ∈ g.paused_tasks

/-- One budget line of the dict returned by `get_status`. -/
structure BudgetLine where
  limit : ℚ
  used : ℚ
  remaining : ℚ
  usage_percent : ℚ
  deriving DecidableEq, Repr

/-- The dict returned by `CostGovernor.get_status`. -/
structure GovernorStatusView where
  total_costs_24h : ℚ
  paused_tasks : List String
  budgets : CostCategory → Option BudgetLine

/-- Loop body of `CostGovernor.get_status` for one budget category: apply the
lazy reset in place and add the (post-reset) budget line to the view.  The
iteration order over `self.budgets` is the category declaration order in which
`__init__` seeded them. -/
def getStatusStep (now : ℚ)
    (acc : CostGovernor × (CostCategory → Option BudgetLine)) (c : CostCategory) :
    CostGovernor × (CostCategory → Option BudgetLine) :=
  match (acc.1).budgets c with
  | none => acc
  | some _ =>
    let g2 := resetBudgetIfNeeded acc.1 now c
    match g2.budgets c with
    | some budget =>
      (g2, fun c2 =>
        if c2 = c then
          some { limit := budget.limit
                 used := budget.current_usage
                 remaining := budget.limit - budget.current_usage
                 usage_percent := budget.current_usage / budget.limit * 100 }
        else acc.2 c2)
    | none => acc

/-- `CostGovernor.get_status` proper: the 24 h total, the paused set, and the
per-budget lines.  (The loop body is `getStatusStep`.) -/
def get_status (g : CostGovernor) (now : ℚ) : GovernorStatusView × CostGovernor :=
  let cutoff_time := now - 24 * 3600
  let total := g.cost_history.foldl
    (fun acc entry =>
      if entry.timestamp ≥ cutoff_time then acc + entry.amount else acc) 0
  let folded := CostCategory.all.foldl (getStatusStep now) (g, fun _ => none)
  ({ total_costs_24h := total, paused_tasks := g.paused_tasks,
     budgets := folded.2 }, folded.1)

/-! ## Stuck guard (`src/mcp/stuck_guard.py`) -/

/-- `TaskMonitor` dataclass.  Defaults: `timeout_threshold = 300`,
`max_idle_time = 60`. -/
structure TaskMonitor where
  task_id : String
  start_time : ℚ
  last_progress : ℚ
  timeout_threshold : ℚ
  max_idle_time : ℚ
  deriving DecidableEq, Repr

/-- `StuckGuard` state (constructor defaults: `default_timeout = 300`,
`check_interval = 30`, empty registries). -/
structure StuckGuard where
  default_timeout : ℚ
  check_interval : ℚ
  monitored_tasks : List (String × TaskMonitor)
  stuck_tasks : List String
  task_dependencies : List (String × List String)

/-- `StuckGuard.__init__`. -/
def StuckGuard.init (default_timeout : ℚ) (check_interval : ℚ) : StuckGuard :=
  { default_timeout := default_timeout, check_interval := check_interval,
    monitored_tasks := [], stuck_tasks := [], task_dependencies := [] }

/-- `StuckGuard.register_task`.  `timeout or self.default_timeout` in Python
falls back to the default both when `timeout` is `None` and when it is `0`. -/
def register_task (sg : StuckGuard) (now : ℚ) (task_id : String)
    (timeout : Option ℚ) (dependencies : Option (List String)) : StuckGuard :=
  let threshold : ℚ :=
    match timeout with
    | some t => if t = 0 then sg.default_timeout else t
    | none => sg.default_timeout
  let monitor : TaskMonitor :=
    { task_id := task_id, start_time := now, last_progress := now,
      timeout_threshold := threshold, max_idle_time := 60 }
  { sg with monitored_tasks := dictSet sg.monitored_tasks task_id monitor
            task_dependencies := dictSet sg.task_dependencies task_id
              (dependencies.getD []) }

/-- `StuckGuard.update_progress`: re-stamp `last_progress` and drop the stuck
flag, but only when the task is monitored. -/
def update_progress (sg : StuckGuard) (now : ℚ) (task_id : String) : StuckGuard :=
  match dictGet sg.monitored_tasks task_id with
  | some monitor =>
    { sg with
        monitored_tasks := dictSet sg.monitored_tasks task_id
          { monitor with last_progress := now }
        stuck_tasks := setRemove sg.stuck_tasks task_id }
  | none => sg

/-- `StuckGuard.complete_task`: remove every trace of the task. -/
def complete_task (sg : StuckGuard) (task_id : String) : StuckGuard :=
  if (dictGet sg.monitored_tasks task_id).isSome then
    { sg with monitored_tasks := dictDel sg.monitored_tasks task_id
              stuck_tasks := setRemove sg.stuck_tasks task_id
              task_dependencies := dictDel sg.task_dependencies task_id }
  else sg

/-- The stuck condition of `check_stuck_tasks`: absolute timeout exceeded or
idle for longer than `max_idle_time`. -/
def isStuckCond (now : ℚ) (monitor : TaskMonitor) : Bool :=
  decide (now - monitor.start_time > monitor.timeout_threshold) ||
  decide (now - monitor.last_progress > monitor.max_idle_time)

/-- Loop body of `check_stuck_tasks` for one monitor entry: if the task meets
the stuck condition and is not already flagged, add it to the newly-stuck list
and to the stuck set. -/
def checkStuckStep (now : ℚ) (acc : List String × List String)
    (p : String × TaskMonitor) : List String × List String :=
  if isStuckCond now p.2 && !(decide (p.1 ∈ acc.2)) then
    (acc.1 ++ [p.1], setInsert acc.2 p.1)
  else acc

/-- `StuckGuard.check_stuck_tasks`: walk the monitors in registration order,
collect ids that satisfy the stuck condition and are not already flagged, and
flag them.  Returns the newly-stuck ids and the new state. -/
def check_stuck_tasks (sg : StuckGuard) (now : ℚ) :
    List String × StuckGuard :=
  let folded := sg.monitored_tasks.foldl (checkStuckStep now) ([], sg.stuck_tasks)
  (folded.1, { sg with stuck_tasks := folded.2 })

/-- `StuckGuard.get_stuck_tasks`. -/
def get_stuck_tasks (sg : StuckGuard) : List String :=
  sg.stuck_tasks

/-- `StuckGuard.force_timeout_task`. -/
def force_timeout_task (sg : StuckGuard) (task_id : String) :
    Bool × StuckGuard :=
  if (dictGet sg.monitored_tasks task_id).isSome then
    (true, { sg with stuck_tasks := setInsert sg.stuck_tasks task_id })
  else (false, sg)

/-- `frozenset(l)`: a Python `frozenset` of ids, modelled as the duplicate-free
list of its elements; equality of frozensets is `sameSet` below. -/
def frozen (l : List String) : List String :=
  l.dedup

/-- Equality of two frozensets (duplicate-free lists compared as sets). -/
def sameSet (a b : List String) : Bool :=
  a.all (fun x => x ∈ b) && b.all (fun x => x ∈ a)

/-- Set insertion on a collection of frozensets (`cycles.add(frozenset(...))`):
a no-op when an equal set is already present. -/
def cyclesInsert (cycles : List (List String)) (c : List String) :
    List (List String) :=
  if cycles.any (fun c2 => sameSet c2 c) then cycles else cycles ++ [c]

/-- Accumulator threaded through the cycle-detection DFS: the global `visited`
set and the `cycles` set of frozensets. -/
structure DfsAcc where
  visited : List String
  cycles : List (List String)
  deriving DecidableEq, Repr

/-- The inner `dfs` of `StuckGuard.detect_dependency_cycles`.  `path` plays the
role of both the copied `path` list and the recursion-stack set (their contents
coincide at every call).  Fuel bounds the recursion depth; any fuel larger than
the number of registered tasks is enough, since each nested call either returns
at a guard or marks one more task visited. -/
def dfs (deps : List (String × List String)) :
    Nat → String → List String → DfsAcc → Option (List String) × DfsAcc
  | 0, _, _, acc => (none, acc)
  | fuel + 1, task_id, path, acc =>
    if task_id ∈ path then
      (some (path.drop (path.indexOf task_id) ++ [task_id]), acc)
    else if task_id ∈ acc.visited then
      (none, acc)
    else
      let acc := { acc with visited := acc.visited ++ [task_id] }
      let path := path ++ [task_id]
      let acc := ((dictGet deps task_id).getD []).foldl
        (fun acc dep_id =>
          if (dictGet deps dep_id).isSome then
            let r := dfs deps fuel dep_id path acc
            match r.1 with
            | some cycle => { r.2 with cycles := cyclesInsert r.2.cycles (frozen cycle) }
            | none => r.2
          else acc)
        acc
      (none, acc)

/-- The `cycles` set built by `detect_dependency_cycles` just before its final
`{set(cycle) for cycle in cycles}` comprehension. -/
def collectCycles (sg : StuckGuard) : List (List String) :=
  let keys := sg.task_dependencies.map (·.1)
  let acc := keys.foldl
    (fun acc task_id =>
      if task_id ∈ acc.visited then acc
      else (dfs sg.task_dependencies (keys.length + 1) task_id [] acc).2)
    ⟨[], []⟩
  acc.cycles

/-- `StuckGuard.detect_dependency_cycles`.  The method's final statement,
`{set(cycle) for cycle in cycles}`, builds a `set` of (unhashable) `set`s: in
Python it raises `TypeError` as soon as `cycles` is non-empty, and returns the
empty set otherwise.  Modelled as `Except`: `error` is the raised exception. -/
def detect_dependency_cycles (sg : StuckGuard) :
    Except String (List (List String)) :=
  let cycles := collectCycles sg
  if cycles.isEmpty then .ok []
  else .error "TypeError: unhashable type: set"

/-! ## Orchestrator (`src/mcp/orchestrator.py`) -/

/-- `TaskStatus` enum. -/
inductive TaskStatus
  | pending
  | running
  | paused
  | completed
  | failed
  | cancelled
  deriving DecidableEq, Repr

/-- `TaskPriority` enum. -/
inductive TaskPriority
  | low
  | medium
  | high
  | critical
  deriving DecidableEq, Repr

/-- `TaskPriority.value`: LOW = 1, MEDIUM = 2, HIGH = 3, CRITICAL = 4. -/
def TaskPriority.value : TaskPriority → Nat
  | .low => 1
  | .medium => 2
  | .high => 3
  | .critical => 4

/-- `Task` dataclass.  The two metadata keys the orchestrator reads
(`task_type`, set at creation, and the optional `cost_category`) are modelled
as fields; `result` is an opaque value, modelled as a string. -/
structure Task where
  id : String
  name : String
  priority : TaskPriority
  status : TaskStatus
  created_at : ℚ
  started_at : Option ℚ
  completed_at : Option ℚ
  dependencies : List String
  estimated_cost : ℚ
  actual_cost : ℚ
  max_retries : Nat
  retry_count : Nat
  task_type : String
  cost_category : Option CostCategory
  error_message : Option String
  result : Option String
  deriving DecidableEq, Repr

/-- `Orchestrator` state.  `tasks` is the id-keyed registry (insertion = creation
order); `running_tasks` holds the ids whose executions are in flight (the
asyncio handles themselves are outside the model); `task_handlers` records the
registered handler types (the callables are opaque — a handler invocation's
outcome enters the model as a `HandlerOutcome`). -/
structure Orchestrator where
  tasks : List (String × Task)
  running_tasks : List String
  task_handlers : List String
  max_concurrent_tasks : Nat
  stuck_guard : StuckGuard
  cost_governor : CostGovernor
  paused : Bool

/-- `Orchestrator.__init__` at time `now`: stuck guard with
`default_timeout=600.0`, fresh cost governor, not paused. -/
def Orchestrator.init (max_concurrent_tasks : Nat) (now : ℚ) : Orchestrator :=
  { tasks := [], running_tasks := [], task_handlers := [],
    max_concurrent_tasks := max_concurrent_tasks,
    stuck_guard := StuckGuard.init 600 30,
    cost_governor := CostGovernor.init now,
    paused := false }

/-- `Orchestrator.register_task_handler` (the handler callable is opaque; only
the registered type matters to the scheduler). -/
def register_task_handler (o : Orchestrator) (task_type : String) : Orchestrator :=
  { o with task_handlers := setInsert o.task_handlers task_type }

/-- `Orchestrator.create_task`: build the task (status PENDING, fresh
timestamps, retry counter 0), add it to the registry, and register it with the
stuck guard immediately (no timeout or dependency arguments). -/
def create_task (o : Orchestrator) (now : ℚ) (task_id : String) (name : String)
    (task_type : String) (priority : TaskPriority) (dependencies : List String)
    (estimated_cost : ℚ) (max_retries : Nat) : Orchestrator :=
  let task : Task :=
    { id := task_id, name := name, priority := priority, status := .pending,
      created_at := now, started_at := none, completed_at := none,
      dependencies := dependencies, estimated_cost := estimated_cost,
      actual_cost := 0, max_retries := max_retries, retry_count := 0,
      task_type := task_type, cost_category := none,
      error_message := none, result := none }
  { o with tasks := dictSet o.tasks task_id task
           stuck_guard := register_task o.stuck_guard now task_id none none }

/-- `Orchestrator._can_start_task`, as the boolean verdict (the diagnostic
reason string is dropped; no claim consults it).  Checks, in source order:
system pause, the concurrency cap, the cost governor's paused set, every
dependency present and COMPLETED, and a registered handler for the type. -/
def can_start_task (o : Orchestrator) (task : Task) : Bool :=
  if o.paused then false
  else if o.running_tasks.length ≥ o.max_concurrent_tasks then false
  else if is_task_paused o.cost_governor task.id then false
  else if !(task.dependencies.all fun dep_id =>
      match dictGet o.tasks dep_id with
      | some dep_task => decide (dep_task.status = .completed)
      | none => false) then false
  else if !(o.task_handlers.contains task.task_type) then false
  else true

/-- The `finally` block of `Orchestrator._execute_task`: drop the id from the
running set and deregister it from the stuck guard. -/
def executeCleanup (o : Orchestrator) (task_id : String) : Orchestrator :=
  { o with running_tasks := setRemove o.running_tasks task_id
           stuck_guard := complete_task o.stuck_guard task_id }

/-- First half of `Orchestrator._execute_task`, up to the handler invocation
(the `await handler(task)` suspension point): transition to RUNNING, stamp
`started_at`, and if `estimated_cost > 0` ask the cost governor for approval
under the task's cost category (default COMPUTE); on rejection transition to
PAUSED with the budget error message and run the `finally` block — the handler
is never invoked on that path. -/
def executeStart (o : Orchestrator) (now : ℚ) (task_id : String) : Orchestrator :=
  match dictGet o.tasks task_id with
  | none => o
  | some task =>
    let task := { task with status := .running, started_at := some now }
    let o := { o with tasks := dictSet o.tasks task_id task }
    if task.estimated_cost > 0 then
      let category := task.cost_category.getD CostCategory.compute
      let rc := record_cost o.cost_governor now category task.estimated_cost
        ("Task: " ++ task.name) (some task_id)
      let o := { o with cost_governor := rc.2 }
      if rc.1 then o
      else
        let task := { task with status := .paused }
        let task := { task with error_message := some "Task paused due to budget constraints" }
        executeCleanup { o with tasks := dictSet o.tasks task_id task } task_id
    else o

/-- The outcome of the opaque handler invocation `await handler(task)`. -/
inductive HandlerOutcome
  | success (result : String)
  | failure (msg : String)
  deriving DecidableEq, Repr

/-- Second half of `Orchestrator._execute_task`, after the handler returns or
raises.  Success: notify the stuck guard of progress, store the result,
transition to COMPLETED, stamp `completed_at`.  Failure (the `except` branch):
store the error, increment the retry counter, transition back to PENDING while
the counter is under `max_retries`, else to FAILED.  Both paths end with the
`finally` block. -/
def executeFinish (o : Orchestrator) (now : ℚ) (task_id : String)
    (outcome : HandlerOutcome) : Orchestrator :=
  match dictGet o.tasks task_id with
  | none => o
  | some task =>
    match outcome with
    | .success r =>
      let o := { o with stuck_guard := update_progress o.stuck_guard now task_id }
      let task := { task with result := some r, status := .completed }
      let task := { task with completed_at := some now }
      executeCleanup { o with tasks := dictSet o.tasks task_id task } task_id
    | .failure msg =>
      let task := { task with error_message := some msg }
      let task := { task with retry_count := task.retry_count + 1 }
      let task :=
        if task.retry_count < task.max_retries then { task with status := .pending }
        else { task with status := .failed }
      executeCleanup { o with tasks := dictSet o.tasks task_id task } task_id

/-- Stable insertion (earlier tasks stay ahead of equal-priority later ones)
used to model `sorted(..., key=lambda t: t.priority.value, reverse=True)`,
which orders by descending priority and, being stable, keeps registry
(creation) order among equal priorities. -/
def insertByPriority (t : Task) : List Task → List Task
  | [] => [t]
  | u :: us =>
    if t.priority.value ≥ u.priority.value then t :: u :: us
    else u :: insertByPriority t us

/-- The sorted pending list built at the top of `Orchestrator._schedule_tasks`. -/
def pendingSorted (o : Orchestrator) : List Task :=
  ((o.tasks.map (·.2)).filter (fun t => t.status = .pending)).foldr
    insertByPriority []

/-- The loop body of `_schedule_tasks` over the sorted pending list: stop
(`break`) when the concurrency cap is reached, launch each startable task
(modelled as adding its id to the running set), skip the rest.  Returns the
final state and the launch order. -/
def scheduleLoop (o : Orchestrator) : List Task → Orchestrator × List String
  | [] => (o, [])
  | t :: rest =>
    if o.running_tasks.length ≥ o.max_concurrent_tasks then (o, [])
    else if can_start_task o t then
      let o2 := { o with running_tasks := o.running_tasks ++ [t.id] }
      let r := scheduleLoop o2 rest
      (r.1, t.id :: r.2)
    else scheduleLoop o rest

/-- `Orchestrator._schedule_tasks`. -/
def schedule_tasks (o : Orchestrator) : Orchestrator × List String :=
  scheduleLoop o (pendingSorted o)

/-- `Orchestrator.cancel_task`: unknown id → `False`; otherwise cancel the
asyncio handle if in flight (outside the model) and set status CANCELLED
unconditionally. -/
def cancel_task (o : Orchestrator) (task_id : String) : Bool × Orchestrator :=
  match dictGet o.tasks task_id with
  | none => (false, o)
  | some task =>
    let task := { task with status := .cancelled }
    (true, { o with tasks := dictSet o.tasks task_id task })

/-- Step (a) of the main loop in `Orchestrator.start`, for one stuck id: if the
id is in the running set, cancel its execution and force status FAILED with the
timeout error message. -/
def stuck_cancel (o : Orchestrator) (task_id : String) : Orchestrator :=
  if task_id ∈ o.running_tasks then
    match dictGet o.tasks task_id with
    | some task =>
      let task := { task with status := .failed }
      let task := { task with error_message := some "Task cancelled due to timeout" }
      { o with tasks := dictSet o.tasks task_id task }
    | none => o
  else o

/-- `Orchestrator.pause`. -/
def orchPause (o : Orchestrator) : Orchestrator := { o with paused := true }

/-- `Orchestrator.resume`. -/
def orchResume (o : Orchestrator) : Orchestrator := { o with paused := false }

/-! ## Orchestrator operations as events

The orchestrator's mutations of a task's state, at the granularity at which
the asyncio program can interleave them: `_execute_task` is split at the
`await handler(task)` suspension point into `execStartEv` and `execFinishEv`.
The guards record when each event can fire in the source program: executions
are started only for tasks the scheduler selected among PENDING ones, a
handler returns or raises only for a task whose execution reached the handler
(status RUNNING — a cancelled handle raises `CancelledError`, which the
`except Exception` clause does not catch), and the main loop's stuck
cancellation fires for in-flight (RUNNING) executions. -/

/-- One observable orchestrator operation. -/
inductive OrchEvent
  | registerHandler (task_type : String)
  | createTaskEv (task_id name task_type : String) (priority : TaskPriority)
      (dependencies : List String) (estimated_cost : ℚ) (max_retries : Nat)
      (now : ℚ)
  | schedulePassEv
  | execStartEv (task_id : String) (now : ℚ)
  | execFinishEv (task_id : String) (now : ℚ) (outcome : HandlerOutcome)
  | cancelEv (task_id : String)
  | stuckCancelEv (task_id : String)
  | pauseEv
  | resumeEv
  deriving DecidableEq, Repr

/-- Apply one event to the orchestrator state. -/
def applyEvent (o : Orchestrator) : OrchEvent → Orchestrator
  | .registerHandler ttype => register_task_handler o ttype
  | .createTaskEv tid name ttype prio deps cost mr now =>
    create_task o now tid name ttype prio deps cost mr
  | .schedulePassEv => (schedule_tasks o).1
  | .execStartEv tid now => executeStart o now tid
  | .execFinishEv tid now outcome => executeFinish o now tid outcome
  | .cancelEv tid => (cancel_task o tid).2
  | .stuckCancelEv tid => stuck_cancel o tid
  | .pauseEv => orchPause o
  | .resumeEv => orchResume o

/-- The status of a task in the registry, if present. -/
def statusOf (o : Orchestrator) (task_id : String) : Option TaskStatus :=
  (dictGet o.tasks task_id).map (·.status)

/-- When an event can occur in the source program: task ids are fresh uuids at
creation, an execution starts only on a task the scheduler picked while
PENDING, the handler outcome arrives only for a RUNNING task, and the stuck
cancellation targets a RUNNING execution. -/
def guardOK (o : Orchestrator) : OrchEvent → Bool
  | .createTaskEv tid _ _ _ _ _ _ _ => (dictGet o.tasks tid).isNone
  | .execStartEv tid _ => statusOf o tid == some .pending
  | .execFinishEv tid _ _ => statusOf o tid == some .running
  | .stuckCancelEv tid => statusOf o tid == some .running
  | _ => true

/-- Event traces whose every step respects the guards. -/
inductive Reaches : Orchestrator → List OrchEvent → Orchestrator → Prop
  | nil (o : Orchestrator) : Reaches o [] o
  | cons {o o' : Orchestrator} {e : OrchEvent} {es : List OrchEvent}
      (hg : guardOK o e = true) (h : Reaches (applyEvent o e) es o') :
      Reaches o (e :: es) o'

/-- Apply a list of events left to right. -/
def runEvents (o : Orchestrator) (es : List OrchEvent) : Orchestrator :=
  es.foldl applyEvent o

/-- The retry counter of a task in the registry, if present. -/
def retryCountOf (o : Orchestrator) (task_id : String) : Option Nat :=
  (dictGet o.tasks task_id).map (·.retry_count)

/-- Progress rank of a status along PENDING → RUNNING → terminal.  PAUSED,
COMPLETED, FAILED and CANCELLED are all past RUNNING. -/
def statusRank : TaskStatus → Nat
  | .pending => 0
  | .running => 1
  | _ => 2

/-- The per-task retry/status invariant maintained by the orchestrator: the
retry counter never exceeds `max max_retries 1`, and a task that is eligible to
run again (PENDING or RUNNING) has either never failed or still has retry
budget left. -/
def TaskInv (t : Task) : Prop :=
  t.retry_count ≤ max t.max_retries 1 ∧
  ((t.status = .pending ∨ t.status = .running) →
    (t.retry_count = 0 ∨ t.retry_count < t.max_retries))

/-! ### Concrete scenarios used by counterexamples and witnesses -/

/-- A guarded trace driving one handler-less-cost task to COMPLETED:
register a handler, create task `A`, start it, finish successfully. -/
def esCompleted : List OrchEvent :=
  [.registerHandler "t",
   .createTaskEv "A" "A" "t" .medium [] 0 3 0,
   .execStartEv "A" 1,
   .execFinishEv "A" 2 (.success "ok")]

/-- The state reached by `esCompleted` from a fresh orchestrator. -/
def oCompleted : Orchestrator :=
  runEvents (Orchestrator.init 1 0) esCompleted

/-- A guarded trace for an always-raising handler with `max_retries = 2`:
two start/fail rounds. -/
def esTwoFails : List OrchEvent :=
  [.registerHandler "t",
   .createTaskEv "X" "X" "t" .medium [] 0 2 0,
   .execStartEv "X" 1,
   .execFinishEv "X" 2 (.failure "boom"),
   .execStartEv "X" 3,
   .execFinishEv "X" 4 (.failure "boom")]

/-- The state after the first failed attempt of `esTwoFails`. -/
def oOneFail : Orchestrator :=
  runEvents (Orchestrator.init 1 0) (esTwoFails.take 4)

/-- The state after both failed attempts of `esTwoFails`. -/
def oTwoFails : Orchestrator :=
  runEvents (Orchestrator.init 1 0) esTwoFails

/-- A guarded trace for an always-raising handler with `max_retries = 0`:
one start/fail round. -/
def esZeroRetries : List OrchEvent :=
  [.registerHandler "t",
   .createTaskEv "Z" "Z" "t" .medium [] 0 0 0,
   .execStartEv "Z" 1,
   .execFinishEv "Z" 2 (.failure "boom")]

/-- The state reached by `esZeroRetries` from a fresh orchestrator. -/
def oZeroRetries : Orchestrator :=
  runEvents (Orchestrator.init 1 0) esZeroRetries

/-- Stuck-guard state with tasks `A`, `B`, `C` registered so that `A` depends
on `B`, `B` on `C`, and `C` on `A`. -/
def sgThreeCycle : StuckGuard :=
  let sg := StuckGuard.init 300 30
  let sg := register_task sg 0 "A" none (some ["B"])
  let sg := register_task sg 0 "B" none (some ["C"])
  register_task sg 0 "C" none (some ["A"])

/-- Governor whose COMPUTE budget (limit 50) already carries usage 40, i.e.
exactly 80% of the limit, put there by one approved `record_cost`. -/
def gAtEighty : CostGovernor :=
  (record_cost (CostGovernor.init 0) 0 CostCategory.compute 40 "warm up" none).2

/-- An amount-0 `record_cost` call on `gAtEighty`. -/
def recordZeroAtEighty : Bool × CostGovernor :=
  record_cost gAtEighty 0 CostCategory.compute 0 "noop" none

/-- `check_budget_status` on `gAtEighty` one full period (86400 s) later. -/
def statusAfterPeriod : Option BudgetStatusView × CostGovernor :=
  check_budget_status gAtEighty 86400 CostCategory.compute

/-- Scheduling scenario for priority order: concurrency cap 1, a LOW task
created before a HIGH task, an instant handler registered for both. -/
def oHighLow : Orchestrator :=
  runEvents (Orchestrator.init 1 0)
    [.registerHandler "t",
     .createTaskEv "low" "low" "t" .low [] 0 3 0,
     .createTaskEv "high" "high" "t" .high [] 0 3 1]

/-- A stuck guard monitoring one task `W` registered at time 0. -/
def sgMonitorOne : StuckGuard :=
  register_task (StuckGuard.init 300 30) 0 "W" none none

/-- Budget-rejection scenario: task `X` with `estimated_cost = 150` under the
default COMPUTE budget (limit 50), handler registered, about to start. -/
def oCostReject : Orchestrator :=
  runEvents (Orchestrator.init 1 0)
    [.registerHandler "t",
     .createTaskEv "X" "X" "t" .medium [] 150 3 0]

/-! ## Helper lemmas on the dict/set model -/

theorem dictGet_cons_eq {α : Type} (p : String × α) (l : List (String × α))
    (k : String) (h : p.1 = k) : dictGet (p :: l) k = some p.2 := by
  simp [dictGet, List.find?_cons_of_pos, h]

theorem dictGet_cons_ne {α : Type} (p : String × α) (l : List (String × α))
    (k : String) (h : p.1 ≠ k) : dictGet (p :: l) k = dictGet l k := by
  simp [dictGet, List.find?_cons_of_neg, h]

theorem dictGet_map_update_self {α : Type} (l : List (String × α)) (k : String)
    (v : α) (h : l.any (fun p => p.1 = k) = true) :
    dictGet (l.map (fun p => if p.1 = k then (k, v) else p)) k = some v := by
  induction l with
  | nil => simp at h
  | cons p l ih =>
    by_cases hp : p.1 = k
    · rw [List.map_cons, if_pos hp, dictGet_cons_eq _ _ _ rfl]
    · simp only [List.any_cons, hp, decide_eq_true_eq, Bool.false_or,
        decide_eq_false_iff_not, not_false_iff, Bool.false_eq_true, false_or] at h
      rw [List.map_cons, if_neg hp, dictGet_cons_ne _ _ _ hp]
      exact ih h

theorem dictGet_append_single_self {α : Type} (l : List (String × α)) (k : String)
    (v : α) (h : l.any (fun p => p.1 = k) = false) :
    dictGet (l ++ [(k, v)]) k = some v := by
  induction l with
  | nil => exact dictGet_cons_eq _ _ _ rfl
  | cons p l ih =>
    simp only [List.any_cons, Bool.or_eq_false_iff, decide_eq_false_iff_not] at h
    rw [List.cons_append, dictGet_cons_ne _ _ _ h.1]
    exact ih (by simp [h.2])

theorem dictGet_dictSet_self {α : Type} (l : List (String × α)) (k : String)
    (v : α) : dictGet (dictSet l k v) k = some v := by
  unfold dictSet
  by_cases h : l.any (fun p => p.1 = k)
  · rw [if_pos h]; exact dictGet_map_update_self l k v h
  · rw [if_neg h]
    exact dictGet_append_single_self l k v (Bool.eq_false_iff.mpr h)

theorem dictGet_map_update_ne {α : Type} (l : List (String × α)) (k tid : String)
    (v : α) (h : tid ≠ k) :
    dictGet (l.map (fun p => if p.1 = k then (k, v) else p)) tid = dictGet l tid := by
  induction l with
  | nil => rfl
  | cons p l ih =>
    by_cases hp : p.1 = k
    · have hne : p.1 ≠ tid := by rw [hp]; exact fun hh => h hh.symm
      rw [List.map_cons, if_pos hp, dictGet_cons_ne _ _ _ (fun hh => h hh.symm),
        dictGet_cons_ne _ _ _ hne]
      exact ih
    · by_cases hm : p.1 = tid
      · rw [List.map_cons, if_neg hp, dictGet_cons_eq _ _ _ hm, dictGet_cons_eq _ _ _ hm]
      · rw [List.map_cons, if_neg hp, dictGet_cons_ne _ _ _ hm, dictGet_cons_ne _ _ _ hm]
        exact ih

theorem dictGet_append_single_ne {α : Type} (l : List (String × α)) (k tid : String)
    (v : α) (h : tid ≠ k) :
    dictGet (l ++ [(k, v)]) tid = dictGet l tid := by
  induction l with
  | nil =>
    rw [List.nil_append, dictGet_cons_ne _ _ _ (fun hh => h hh.symm)]
  | cons p l ih =>
    by_cases hm : p.1 = tid
    · rw [List.cons_append, dictGet_cons_eq _ _ _ hm, dictGet_cons_eq _ _ _ hm]
    · rw [List.cons_append, dictGet_cons_ne _ _ _ hm, dictGet_cons_ne _ _ _ hm]
      exact ih

theorem dictGet_dictSet_ne {α : Type} (l : List (String × α)) (k tid : String)
    (v : α) (h : tid ≠ k) : dictGet (dictSet l k v) tid = dictGet l tid := by
  unfold dictSet
  by_cases hany : l.any (fun p => p.1 = k)
  · rw [if_pos hany]; exact dictGet_map_update_ne l k tid v h
  · rw [if_neg hany]; exact dictGet_append_single_ne l k tid v h

theorem mem_setInsert (l : List String) (x y : String) :
    y ∈ setInsert l x ↔ y ∈ l ∨ y = x := by
  unfold setInsert
  by_cases h : x ∈ l
  · rw [if_pos h]
    constructor
    · exact Or.inl
    · rintro (hy | rfl)
      · exact hy
      · exact h
  · rw [if_neg h]; simp

theorem mem_setRemove (l : List String) (x y : String) :
    y ∈ setRemove l x ↔ y ∈ l ∧ y ≠ x := by
  unfold setRemove
  simp

theorem scheduleLoop_tasks (o : Orchestrator) (l : List Task) :
    ((scheduleLoop o l).1).tasks = o.tasks := by
  induction l generalizing o with
  | nil => rfl
  | cons t rest ih =>
    unfold scheduleLoop
    by_cases hcap : o.running_tasks.length ≥ o.max_concurrent_tasks
    · rw [if_pos hcap]
    · rw [if_neg hcap]
      by_cases hcs : can_start_task o t
      · simpa [hcs] using ih _
      · simpa [hcs] using ih o

/-- The lazy reset is the identity when the period has not elapsed. -/
theorem resetBudgetIfNeeded_of_not_elapsed (g : CostGovernor) (now : ℚ)
    (cat : CostCategory) (b : Budget) (hb : g.budgets cat = some b)
    (h : ¬(now - b.last_reset ≥ b.period_seconds)) :
    resetBudgetIfNeeded g now cat = g := by
  unfold resetBudgetIfNeeded
  simp only [hb]
  rw [if_neg h]

/-- The lazy reset is the identity when the category has no budget. -/
theorem resetBudgetIfNeeded_of_none (g : CostGovernor) (now : ℚ)
    (cat : CostCategory) (hb : g.budgets cat = none) :
    resetBudgetIfNeeded g now cat = g := by
  unfold resetBudgetIfNeeded
  simp only [hb]

/-- The lazy reset keeps the category's budget present. -/
theorem resetBudgetIfNeeded_budgets_isSome (g : CostGovernor) (now : ℚ)
    (cat : CostCategory) (b : Budget) (hb : g.budgets cat = some b) :
    ((resetBudgetIfNeeded g now cat).budgets cat).isSome := by
  unfold resetBudgetIfNeeded
  simp only [hb]
  by_cases h : now - b.last_reset ≥ b.period_seconds
  · rw [if_pos h]; simp
  · rw [if_neg h]; rw [hb]; rfl

/-- The lazy reset touches nothing but the one category's budget record. -/
theorem resetBudgetIfNeeded_frame (g : CostGovernor) (now : ℚ)
    (cat : CostCategory) :
    (resetBudgetIfNeeded g now cat).cost_history = g.cost_history ∧
    (resetBudgetIfNeeded g now cat).paused_tasks = g.paused_tasks ∧
    (resetBudgetIfNeeded g now cat).cost_alerts = g.cost_alerts ∧
    ∀ c, c ≠ cat → (resetBudgetIfNeeded g now cat).budgets c = g.budgets c := by
  refine ⟨?_, ?_, ?_, fun c hc => ?_⟩ <;>
  · unfold resetBudgetIfNeeded
    split
    · rfl
    · split
      · simp_all
      · rfl

/-- The state `check_budget_status` leaves behind is exactly the lazy reset of
its input. -/
theorem check_budget_status_state_eq (g : CostGovernor) (now : ℚ)
    (cat : CostCategory) :
    (check_budget_status g now cat).2 = resetBudgetIfNeeded g now cat := by
  unfold check_budget_status
  split
  · next heq => rw [resetBudgetIfNeeded_of_none g now cat heq]
  · dsimp only
    split <;> rfl

/-- One `get_status` loop step leaves behind exactly the lazy reset of the
category it visits. -/
theorem getStatusStep_fst (now : ℚ)
    (acc : CostGovernor × (CostCategory → Option BudgetLine)) (c : CostCategory) :
    (getStatusStep now acc c).1 = resetBudgetIfNeeded acc.1 now c := by
  unfold getStatusStep
  split
  · next heq => exact (resetBudgetIfNeeded_of_none _ _ _ heq).symm
  · next b heq =>
    dsimp only
    split
    · rfl
    · next heq2 =>
      have hs := resetBudgetIfNeeded_budgets_isSome acc.1 now c b heq
      rw [heq2] at hs
      cases hs

theorem foldl_getStatusStep_fst (l : List CostCategory) (now : ℚ)
    (g : CostGovernor) (view : CostCategory → Option BudgetLine) :
    (l.foldl (getStatusStep now) (g, view)).1 =
      l.foldl (fun g2 c => resetBudgetIfNeeded g2 now c) g := by
  induction l generalizing g view with
  | nil => rfl
  | cons c l ih =>
    simp only [List.foldl_cons]
    rw [← getStatusStep_fst now (g, view) c]
    simpa using ih (getStatusStep now (g, view) c).1 (getStatusStep now (g, view) c).2

/-- The state `get_status` leaves behind is exactly the lazy reset applied to
every category, in iteration order. -/
theorem get_status_state_eq (g : CostGovernor) (now : ℚ) :
    (get_status g now).2 =
      CostCategory.all.foldl (fun g2 c => resetBudgetIfNeeded g2 now c) g := by
  unfold get_status
  exact foldl_getStatusStep_fst CostCategory.all now g (fun _ => none)

/-- The view `check_budget_status` reports is built from the post-reset budget
record. -/
theorem check_budget_status_view (g : CostGovernor) (now : ℚ) (cat : CostCategory)
    (b b' : Budget) (hb : g.budgets cat = some b)
    (hb' : (resetBudgetIfNeeded g now cat).budgets cat = some b') :
    (check_budget_status g now cat).1 = some
      { category := cat, limit := b'.limit, current_usage := b'.current_usage,
        remaining := b'.limit - b'.current_usage,
        usage_percent := b'.current_usage / b'.limit * 100,
        period_hours := b'.period_seconds / 3600,
        time_until_reset := b'.period_seconds - (now - b'.last_reset) } := by
  unfold check_budget_status
  simp only [hb, hb']

/-- Full description of an approved `record_cost`: the reset is applied, the
entry is appended, the category's usage grows by `amount`, and the 80% warning
is appended exactly when the new usage fraction lies in `[80%, 100%)` — on
every such call. -/
theorem record_cost_approved_eq (g : CostGovernor) (now : ℚ) (cat : CostCategory)
    (a : ℚ) (d : String) (tid : Option String) (b : Budget)
    (hb : (resetBudgetIfNeeded g now cat).budgets cat = some b)
    (hle : b.current_usage + a ≤ b.limit) :
    record_cost g now cat a d tid =
      (true,
        { cost_history := (resetBudgetIfNeeded g now cat).cost_history ++
            [{ timestamp := now, category := cat, amount := a, description := d,
               task_id := tid }]
          budgets := fun c =>
            if c = cat then some { b with current_usage := b.current_usage + a }
            else (resetBudgetIfNeeded g now cat).budgets c
          paused_tasks := (resetBudgetIfNeeded g now cat).paused_tasks
          cost_alerts :=
            if 80 ≤ (b.current_usage + a) / b.limit * 100 ∧
                (b.current_usage + a) / b.limit * 100 < 100 then
              (resetBudgetIfNeeded g now cat).cost_alerts ++
                [Alert.warning cat ((b.current_usage + a) / b.limit * 100)]
            else (resetBudgetIfNeeded g now cat).cost_alerts }) := by
  have hnr : ¬(b.current_usage + a > b.limit) := not_lt.mpr hle
  simp only [record_cost, hb, decide_eq_false hnr, Bool.false_eq_true, if_false,
    if_true]
  by_cases hband : 80 ≤ (b.current_usage + a) / b.limit * 100 ∧
      (b.current_usage + a) / b.limit * 100 < 100
  · simp only [if_pos hband]
  · simp only [if_neg hband]

/-- Behaviour of a rejected `record_cost`: returns `False`, appends no entry,
leaves the (post-reset) usage unchanged, and adds the supplied task id to the
paused set. -/
theorem record_cost_rejected (g : CostGovernor) (now : ℚ) (cat : CostCategory)
    (a : ℚ) (d : String) (tid : Option String) (b : Budget)
    (hb : (resetBudgetIfNeeded g now cat).budgets cat = some b)
    (hgt : b.current_usage + a > b.limit) :
    (record_cost g now cat a d tid).1 = false ∧
    (record_cost g now cat a d tid).2.cost_history =
      (resetBudgetIfNeeded g now cat).cost_history ∧
    (record_cost g now cat a d tid).2.budgets cat = some b ∧
    (∀ x, tid = some x → x ∈ (record_cost g now cat a d tid).2.paused_tasks) := by
  cases tid with
  | none =>
    simp only [record_cost, hb, decide_eq_true hgt, if_true]
    refine ⟨?_, ?_, ?_, fun x hx => by cases hx⟩ <;> first | rfl | trivial
  | some x =>
    simp only [record_cost, hb, decide_eq_true hgt, if_true]
    refine ⟨?_, ?_, ?_, fun y hy => ?_⟩
    · first | rfl | trivial
    · first | rfl | trivial
    · first | rfl | trivial
    · cases hy
      simp [mem_setInsert]

/-- `record_cost` approves exactly when the post-reset usage plus the amount
fits under the limit. -/
theorem record_cost_true_iff (g : CostGovernor) (now : ℚ) (cat : CostCategory)
    (a : ℚ) (d : String) (tid : Option String) (b : Budget)
    (hb : (resetBudgetIfNeeded g now cat).budgets cat = some b) :
    ((record_cost g now cat a d tid).1 = true ↔ b.current_usage + a ≤ b.limit) := by
  by_cases hle : b.current_usage + a ≤ b.limit
  · rw [record_cost_approved_eq g now cat a d tid b hb hle]
    simpa using hle
  · have hgt : b.current_usage + a > b.limit := not_le.mp hle
    have h := (record_cost_rejected g now cat a d tid b hb hgt).1
    rw [h]
    simp [hle]

/-! ## Claims -/

/-- *C3.* With tasks `A`, `B`, `C` registered so that `A` depends on `B`, `B`
on `C` and `C` on `A`, the DFS inside `detect_dependency_cycles` does identify
the cycle and records the frozenset `{A, B, C}` as the sole member of its
internal `cycles` set — but the method's final statement,
`{set(cycle) for cycle in cycles}`, builds a set of unhashable `set` objects
and therefore raises `TypeError` instead of returning: the call never returns
the set of cycles whenever at least one cycle exists. -/
theorem C3_cycle_found_but_detect_raises :
    (∃ c ∈ collectCycles sgThreeCycle, sameSet c ["A", "B", "C"] = true) ∧
    detect_dependency_cycles sgThreeCycle =
      Except.error "TypeError: unhashable type: set" := by
  constructor
  · exact ⟨["B", "C", "A"], by with_unfolding_all decide, by with_unfolding_all decide⟩
  · with_unfolding_all rfl

/-- *C4 counterexample.* On the default COMPUTE budget (limit 50) brought to
usage 40 — exactly 80% — by one approved call, a further `record_cost` with
amount 0 is approved, leaves `current_usage` at 40, and appends a second 80%
warning alert: the claim's "appends no warning alert" is false, and warnings
are not one-shot per crossing. -/
theorem C4_counterexample_zero_amount_appends_warning :
    ((gAtEighty.budgets CostCategory.compute).map Budget.current_usage = some 40) ∧
    (gAtEighty.cost_alerts.filter Alert.isWarning).length = 1 ∧
    recordZeroAtEighty.1 = true ∧
    ((recordZeroAtEighty.2.budgets CostCategory.compute).map Budget.current_usage =
      some 40) ∧
    (recordZeroAtEighty.2.cost_alerts.filter Alert.isWarning).length = 2 := by
  with_unfolding_all decide

/-- *C4 (amended).* For a budgeted category with no lazy reset due, an
approved `record_cost` (any amount `a` with `current_usage + a ≤ limit`,
amount 0 included) leaves `current_usage` at `current_usage + a` — unchanged
for amount 0 — and appends one warning alert exactly when the resulting usage
fraction lies in `[80%, 100%)` of the limit: the warning is emitted on every
call in that band, not once per crossing of 80%. -/
theorem C4_warning_emitted_every_call_in_band :
    ∀ (g : CostGovernor) (now : ℚ) (cat : CostCategory) (d : String)
      (tid : Option String) (b : Budget) (a : ℚ),
      g.budgets cat = some b →
      ¬(now - b.last_reset ≥ b.period_seconds) →
      b.current_usage + a ≤ b.limit →
      (record_cost g now cat a d tid).1 = true ∧
      ((record_cost g now cat a d tid).2.budgets cat).map Budget.current_usage =
        some (b.current_usage + a) ∧
      (record_cost g now cat a d tid).2.cost_alerts =
        (if 80 ≤ (b.current_usage + a) / b.limit * 100 ∧
             (b.current_usage + a) / b.limit * 100 < 100 then
          g.cost_alerts ++ [Alert.warning cat ((b.current_usage + a) / b.limit * 100)]
        else g.cost_alerts) := by
  intro g now cat d tid b a hb0 hnel hle
  have hres : resetBudgetIfNeeded g now cat = g :=
    resetBudgetIfNeeded_of_not_elapsed g now cat b hb0 hnel
  have hb : (resetBudgetIfNeeded g now cat).budgets cat = some b := by
    rw [hres]; exact hb0
  rw [record_cost_approved_eq g now cat a d tid b hb hle, hres]
  refine ⟨rfl, by simp, rfl⟩

/-- Witness for C4: the amended statement applied to the concrete 80% budget
state and amount 0 — the hypotheses hold there and one more warning is
appended. -/
theorem C4_witness :
    (gAtEighty.budgets CostCategory.compute =
        some { category := CostCategory.compute, limit := 50,
               period_seconds := 86400, current_usage := 40, last_reset := 0 } ∧
      ¬((0 : ℚ) - 0 ≥ 86400) ∧ (40 : ℚ) + 0 ≤ 50) ∧
    ((record_cost gAtEighty 0 CostCategory.compute 0 "noop" none).1 = true ∧
      ((record_cost gAtEighty 0 CostCategory.compute 0 "noop" none).2.budgets
          CostCategory.compute).map Budget.current_usage = some (40 + 0) ∧
      (record_cost gAtEighty 0 CostCategory.compute 0 "noop" none).2.cost_alerts =
        (if 80 ≤ ((40 : ℚ) + 0) / 50 * 100 ∧ ((40 : ℚ) + 0) / 50 * 100 < 100 then
          gAtEighty.cost_alerts ++
            [Alert.warning CostCategory.compute (((40 : ℚ) + 0) / 50 * 100)]
        else gAtEighty.cost_alerts)) :=
  ⟨⟨by with_unfolding_all rfl, by with_unfolding_all decide,
    by with_unfolding_all decide⟩,
   C4_warning_emitted_every_call_in_band gAtEighty 0 CostCategory.compute "noop"
     none { category := CostCategory.compute, limit := 50, period_seconds := 86400,
            current_usage := 40, last_reset := 0 } 0
     (by with_unfolding_all rfl) (by with_unfolding_all decide)
     (by with_unfolding_all decide)⟩

/-- *C5 counterexample.* `check_budget_status` called one full period after the
last reset zeroes `current_usage` (40 → 0) and re-stamps `last_reset` (0 →
86400) in place: the claim that queries leave every budget's `current_usage`
and `last_reset` equal to their prior values is false. -/
theorem C5_counterexample_check_budget_status_mutates :
    ((gAtEighty.budgets CostCategory.compute).map Budget.current_usage = some 40) ∧
    ((gAtEighty.budgets CostCategory.compute).map Budget.last_reset = some 0) ∧
    ((statusAfterPeriod.2.budgets CostCategory.compute).map Budget.current_usage =
      some 0) ∧
    ((statusAfterPeriod.2.budgets CostCategory.compute).map Budget.last_reset =
      some 86400) ∧
    (statusAfterPeriod.1.map BudgetStatusView.current_usage = some 0) ∧
    ¬((statusAfterPeriod.2.budgets CostCategory.compute).map Budget.current_usage =
        (gAtEighty.budgets CostCategory.compute).map Budget.current_usage) := by
  refine ⟨?_, ?_, ?_, ?_, ?_, ?_⟩
  · with_unfolding_all rfl
  · with_unfolding_all rfl
  · with_unfolding_all rfl
  · with_unfolding_all rfl
  · with_unfolding_all rfl
  · with_unfolding_all decide

/-- *C5 (amended).* The budget queries are read-only **except** that
`check_budget_status` and `get_status` apply the lazy reset in place:
`check_budget_status` leaves behind exactly `resetBudgetIfNeeded` of its input
(so it is the identity when no reset is due), `get_status` leaves behind the
lazy reset applied to every category, the reset touches nothing but the one
category's budget record, `get_total_costs` and `get_cost_breakdown` never
mutate, and the reported view reflects the post-reset budget. -/
theorem C5_queries_apply_exactly_lazy_reset :
    (∀ (g : CostGovernor) (now : ℚ) (cat : CostCategory),
      (check_budget_status g now cat).2 = resetBudgetIfNeeded g now cat) ∧
    (∀ (g : CostGovernor) (now : ℚ) (cat : Option CostCategory) (hb : Option ℚ),
      (get_total_costs g now cat hb).2 = g) ∧
    (∀ (g : CostGovernor) (now : ℚ) (hb : ℚ),
      (get_cost_breakdown g now hb).2 = g) ∧
    (∀ (g : CostGovernor) (now : ℚ),
      (get_status g now).2 =
        CostCategory.all.foldl (fun g2 c => resetBudgetIfNeeded g2 now c) g) ∧
    (∀ (g : CostGovernor) (now : ℚ) (cat : CostCategory),
      (resetBudgetIfNeeded g now cat).cost_history = g.cost_history ∧
      (resetBudgetIfNeeded g now cat).paused_tasks = g.paused_tasks ∧
      (resetBudgetIfNeeded g now cat).cost_alerts = g.cost_alerts ∧
      ∀ c, c ≠ cat → (resetBudgetIfNeeded g now cat).budgets c = g.budgets c) ∧
    (∀ (g : CostGovernor) (now : ℚ) (cat : CostCategory) (b : Budget),
      g.budgets cat = some b →
      ¬(now - b.last_reset ≥ b.period_seconds) →
      (check_budget_status g now cat).2 = g) ∧
    (∀ (g : CostGovernor) (now : ℚ) (cat : CostCategory) (b b' : Budget),
      g.budgets cat = some b →
      (resetBudgetIfNeeded g now cat).budgets cat = some b' →
      (check_budget_status g now cat).1 = some
        { category := cat, limit := b'.limit, current_usage := b'.current_usage,
          remaining := b'.limit - b'.current_usage,
          usage_percent := b'.current_usage / b'.limit * 100,
          period_hours := b'.period_seconds / 3600,
          time_until_reset := b'.period_seconds - (now - b'.last_reset) }) := by
  refine ⟨check_budget_status_state_eq, fun g now cat hb => rfl,
    fun g now hb => rfl, get_status_state_eq, resetBudgetIfNeeded_frame,
    fun g now cat b hb hnel => ?_, check_budget_status_view⟩
  rw [check_budget_status_state_eq,
    resetBudgetIfNeeded_of_not_elapsed g now cat b hb hnel]

/-- Witness for C5: the amended statement applied at the concrete 80% budget
state — a query before the period elapses is the identity, and the one after a
period leaves behind exactly the lazy reset. -/
theorem C5_witness :
    (gAtEighty.budgets CostCategory.compute =
        some { category := CostCategory.compute, limit := 50,
               period_seconds := 86400, current_usage := 40, last_reset := 0 } ∧
      ¬((10 : ℚ) - 0 ≥ 86400)) ∧
    (check_budget_status gAtEighty 10 CostCategory.compute).2 = gAtEighty ∧
    (check_budget_status gAtEighty 86400 CostCategory.compute).2 =
      resetBudgetIfNeeded gAtEighty 86400 CostCategory.compute :=
  ⟨⟨by with_unfolding_all rfl, by with_unfolding_all decide⟩,
   C5_queries_apply_exactly_lazy_reset.2.2.2.2.2.1 gAtEighty 10
     CostCategory.compute
     { category := CostCategory.compute, limit := 50, period_seconds := 86400,
       current_usage := 40, last_reset := 0 }
     (by with_unfolding_all rfl) (by with_unfolding_all decide),
   C5_queries_apply_exactly_lazy_reset.1 gAtEighty 86400 CostCategory.compute⟩

/-! ## Stuck-guard lemmas (C9, C10) -/

theorem dictGet_eq_some_iff {α : Type} (l : List (String × α)) (x : String)
    (m : α) (hN : (l.map (fun p => p.1)).Nodup) :
    dictGet l x = some m ↔ (x, m) ∈ l := by
  induction l with
  | nil => simp [dictGet]
  | cons p l ih =>
    obtain ⟨pk, pv⟩ := p
    rw [List.map_cons, List.nodup_cons] at hN
    obtain ⟨hp_not, hN2⟩ := hN
    by_cases hp : pk = x
    · subst hp
      rw [dictGet_cons_eq _ _ _ rfl]
      constructor
      · intro h
        have h2 : pv = m := Option.some.inj h
        subst h2
        exact List.mem_cons_self _ _
      · intro h
        rcases List.mem_cons.mp h with heq | hmem
        · injection heq with h1 h2
          rw [h2]
        · exact absurd (List.mem_map.mpr ⟨(pk, m), hmem, rfl⟩) hp_not
    · rw [dictGet_cons_ne _ _ _ hp, ih hN2]
      constructor
      · exact fun h => List.mem_cons_of_mem _ h
      · intro h
        rcases List.mem_cons.mp h with heq | hmem
        · injection heq with h1 h2
          exact absurd h1.symm hp
        · exact hmem

theorem dictSet_keys_map {α : Type} (l : List (String × α)) (k : String) (v : α) :
    (dictSet l k v).map (fun p => p.1) =
      if l.any (fun p => p.1 = k) then l.map (fun p => p.1)
      else l.map (fun p => p.1) ++ [k] := by
  unfold dictSet
  by_cases h : l.any (fun p => p.1 = k)
  · rw [if_pos h, if_pos h, List.map_map]
    apply List.map_congr_left
    intro p hp
    by_cases hpk : p.1 = k <;> simp [hpk]
  · rw [if_neg h, if_neg h, List.map_append]
    rfl

theorem dictSet_keys_nodup {α : Type} (l : List (String × α)) (k : String) (v : α)
    (hN : (l.map (fun p => p.1)).Nodup) :
    ((dictSet l k v).map (fun p => p.1)).Nodup := by
  rw [dictSet_keys_map]
  by_cases h : l.any (fun p => p.1 = k)
  · rw [if_pos h]; exact hN
  · rw [if_neg h, List.nodup_append]
    refine ⟨hN, List.nodup_singleton k, ?_⟩
    intro a ha hb
    rw [List.mem_singleton] at hb
    subst hb
    rcases List.mem_map.mp ha with ⟨p, hp, hpk⟩
    exact h (List.any_eq_true.mpr ⟨p, hp, by simp [hpk]⟩)

/-- Characterization of the `check_stuck_tasks` fold: given duplicate-free
monitor keys, an id is collected as newly stuck iff some monitor entry for it
meets the stuck condition and it was not already flagged; the final stuck set
is the initial one plus exactly those ids. -/
theorem foldl_checkStuckStep_char (now : ℚ) (l : List (String × TaskMonitor)) :
    ∀ (n s : List String), (l.map (fun p => p.1)).Nodup →
      (∀ x, x ∈ (l.foldl (checkStuckStep now) (n, s)).1 ↔
        (x ∈ n ∨ ∃ m, (x, m) ∈ l ∧ isStuckCond now m = true ∧ x ∉ s)) ∧
      (∀ x, x ∈ (l.foldl (checkStuckStep now) (n, s)).2 ↔
        (x ∈ s ∨ ∃ m, (x, m) ∈ l ∧ isStuckCond now m = true ∧ x ∉ s)) := by
  induction l with
  | nil => intro n s _; simp
  | cons p l ih =>
    intro n s hN
    obtain ⟨k, m⟩ := p
    rw [List.map_cons, List.nodup_cons] at hN
    obtain ⟨hk_not, hN2⟩ := hN
    have hxk_of_tail : ∀ (x : String) (m2 : TaskMonitor), (x, m2) ∈ l → x ≠ k := by
      intro x m2 hmem hxe
      subst hxe
      exact hk_not (List.mem_map.mpr ⟨(x, m2), hmem, rfl⟩)
    rw [List.foldl_cons]
    by_cases hc : isStuckCond now m = true
    · by_cases hks : k ∈ s
      · have hstep : checkStuckStep now (n, s) (k, m) = (n, s) := by
          simp [checkStuckStep, hc, hks]
        rw [hstep]
        obtain ⟨ih1, ih2⟩ := ih n s hN2
        constructor
        · intro x
          rw [ih1 x]
          constructor
          · rintro (hx | ⟨m2, hm2, hc2, hs2⟩)
            · exact Or.inl hx
            · exact Or.inr ⟨m2, List.mem_cons_of_mem _ hm2, hc2, hs2⟩
          · rintro (hx | ⟨m2, hm2, hc2, hs2⟩)
            · exact Or.inl hx
            · rcases List.mem_cons.mp hm2 with heq | hmem
              · injection heq with h1 h2
                subst h1
                exact absurd hks hs2
              · exact Or.inr ⟨m2, hmem, hc2, hs2⟩
        · intro x
          rw [ih2 x]
          constructor
          · rintro (hx | ⟨m2, hm2, hc2, hs2⟩)
            · exact Or.inl hx
            · exact Or.inr ⟨m2, List.mem_cons_of_mem _ hm2, hc2, hs2⟩
          · rintro (hx | ⟨m2, hm2, hc2, hs2⟩)
            · exact Or.inl hx
            · rcases List.mem_cons.mp hm2 with heq | hmem
              · injection heq with h1 h2
                subst h1
                exact absurd hks hs2
              · exact Or.inr ⟨m2, hmem, hc2, hs2⟩
      · have hstep : checkStuckStep now (n, s) (k, m) = (n ++ [k], setInsert s k) := by
          simp [checkStuckStep, hc, hks]
        rw [hstep]
        obtain ⟨ih1, ih2⟩ := ih (n ++ [k]) (setInsert s k) hN2
        have hnotIns : ∀ (x : String), x ∉ setInsert s k ↔ (x ∉ s ∧ x ≠ k) := by
          intro x
          rw [mem_setInsert, not_or]
        constructor
        · intro x
          rw [ih1 x]
          constructor
          · rintro (hx | ⟨m2, hm2, hc2, hs2⟩)
            · rcases List.mem_append.mp hx with hx2 | hx2
              · exact Or.inl hx2
              · rw [List.mem_singleton] at hx2
                subst hx2
                exact Or.inr ⟨m, List.mem_cons_self _ _, hc, hks⟩
            · obtain ⟨hs3, _⟩ := (hnotIns x).mp hs2
              exact Or.inr ⟨m2, List.mem_cons_of_mem _ hm2, hc2, hs3⟩
          · rintro (hx | ⟨m2, hm2, hc2, hs2⟩)
            · exact Or.inl (List.mem_append.mpr (Or.inl hx))
            · rcases List.mem_cons.mp hm2 with heq | hmem
              · injection heq with h1 h2
                subst h1
                exact Or.inl (List.mem_append.mpr (Or.inr (by simp)))
              · refine Or.inr ⟨m2, hmem, hc2, (hnotIns x).mpr ⟨hs2, hxk_of_tail x m2 hmem⟩⟩
        · intro x
          rw [ih2 x]
          constructor
          · rintro (hx | ⟨m2, hm2, hc2, hs2⟩)
            · rcases (mem_setInsert s k x).mp hx with hx2 | hx2
              · exact Or.inl hx2
              · subst hx2
                exact Or.inr ⟨m, List.mem_cons_self _ _, hc, hks⟩
            · obtain ⟨hs3, _⟩ := (hnotIns x).mp hs2
              exact Or.inr ⟨m2, List.mem_cons_of_mem _ hm2, hc2, hs3⟩
          · rintro (hx | ⟨m2, hm2, hc2, hs2⟩)
            · exact Or.inl ((mem_setInsert s k x).mpr (Or.inl hx))
            · rcases List.mem_cons.mp hm2 with heq | hmem
              · injection heq with h1 h2
                subst h1
                exact Or.inl ((mem_setInsert s x x).mpr (Or.inr rfl))
              · refine Or.inr ⟨m2, hmem, hc2, (hnotIns x).mpr ⟨hs2, hxk_of_tail x m2 hmem⟩⟩
    · have hstep : checkStuckStep now (n, s) (k, m) = (n, s) := by
        simp [checkStuckStep, hc]
      rw [hstep]
      obtain ⟨ih1, ih2⟩ := ih n s hN2
      constructor
      · intro x
        rw [ih1 x]
        constructor
        · rintro (hx | ⟨m2, hm2, hc2, hs2⟩)
          · exact Or.inl hx
          · exact Or.inr ⟨m2, List.mem_cons_of_mem _ hm2, hc2, hs2⟩
        · rintro (hx | ⟨m2, hm2, hc2, hs2⟩)
          · exact Or.inl hx
          · rcases List.mem_cons.mp hm2 with heq | hmem
            · injection heq with h1 h2
              subst h2
              exact absurd hc2 hc
            · exact Or.inr ⟨m2, hmem, hc2, hs2⟩
      · intro x
        rw [ih2 x]
        constructor
        · rintro (hx | ⟨m2, hm2, hc2, hs2⟩)
          · exact Or.inl hx
          · exact Or.inr ⟨m2, List.mem_cons_of_mem _ hm2, hc2, hs2⟩
        · rintro (hx | ⟨m2, hm2, hc2, hs2⟩)
          · exact Or.inl hx
          · rcases List.mem_cons.mp hm2 with heq | hmem
            · injection heq with h1 h2
              subst h2
              exact absurd hc2 hc
            · exact Or.inr ⟨m2, hmem, hc2, hs2⟩

/-- The stuck set only grows during the fold. -/
theorem foldl_checkStuckStep_mono (now : ℚ) (l : List (String × TaskMonitor)) :
    ∀ (n s : List String) (x : String), x ∈ s →
      x ∈ (l.foldl (checkStuckStep now) (n, s)).2 := by
  induction l with
  | nil => intro n s x hx; exact hx
  | cons p l ih =>
    intro n s x hx
    rw [List.foldl_cons]
    unfold checkStuckStep
    split
    · exact ih _ _ x ((mem_setInsert s p.1 x).mpr (Or.inl hx))
    · exact ih _ _ x hx

/-- An id already flagged before the fold is never collected as newly stuck. -/
theorem foldl_checkStuckStep_no_renew (now : ℚ) (l : List (String × TaskMonitor)) :
    ∀ (n s : List String) (x : String), x ∈ s → x ∉ n →
      x ∉ (l.foldl (checkStuckStep now) (n, s)).1 := by
  induction l with
  | nil => intro n s x _ hn; exact hn
  | cons p l ih =>
    intro n s x hx hn
    rw [List.foldl_cons]
    unfold checkStuckStep
    split
    · next hcond =>
      have hpk : p.1 ≠ x := by
        intro he
        rw [Bool.and_eq_true, Bool.not_eq_eq_eq_not, Bool.not_true,
          decide_eq_false_iff_not] at hcond
        exact hcond.2 (he ▸ hx)
      refine ih _ _ x ((mem_setInsert s p.1 x).mpr (Or.inl hx)) ?_
      intro hmem
      rcases List.mem_append.mp hmem with h2 | h2
      · exact hn h2
      · rw [List.mem_singleton] at h2
        exact hpk h2.symm
    · exact ih _ _ x hx hn

/-- *C9.* Life cycle of the stuck flag: `check_stuck_tasks` returns exactly the
monitored ids that meet the stuck condition (absolute timeout exceeded OR idle
beyond `max_idle_time`) and were not already flagged; afterwards the stuck set
is the old one plus the returned ids; a flagged id stays flagged across
arbitrarily many further `check_stuck_tasks` calls and is never re-returned as
newly stuck; `update_progress` on a monitored task clears the flag
unconditionally (in particular even when the absolute timeout is already
exceeded), and so does `complete_task`. -/
theorem C9_stuck_flag_lifecycle :
    (∀ (sg : StuckGuard) (now : ℚ) (x : String),
      (sg.monitored_tasks.map (fun p => p.1)).Nodup →
      (x ∈ (check_stuck_tasks sg now).1 ↔
        ((∃ m, dictGet sg.monitored_tasks x = some m ∧ isStuckCond now m = true) ∧
          x ∉ sg.stuck_tasks))) ∧
    (∀ (sg : StuckGuard) (now : ℚ) (x : String),
      (sg.monitored_tasks.map (fun p => p.1)).Nodup →
      (x ∈ ((check_stuck_tasks sg now).2).stuck_tasks ↔
        (x ∈ sg.stuck_tasks ∨ x ∈ (check_stuck_tasks sg now).1))) ∧
    (∀ (sg : StuckGuard) (x : String), x ∈ sg.stuck_tasks →
      ∀ (nows : List ℚ),
        x ∈ (nows.foldl (fun s t => (check_stuck_tasks s t).2) sg).stuck_tasks) ∧
    (∀ (sg : StuckGuard) (now : ℚ) (x : String), x ∈ sg.stuck_tasks →
      x ∉ (check_stuck_tasks sg now).1) ∧
    (∀ (sg : StuckGuard) (now : ℚ) (x : String),
      (dictGet sg.monitored_tasks x).isSome →
      x ∉ (update_progress sg now x).stuck_tasks) ∧
    (∀ (sg : StuckGuard) (x : String),
      (dictGet sg.monitored_tasks x).isSome →
      x ∉ (complete_task sg x).stuck_tasks) := by
  have hsingle : ∀ (sg : StuckGuard) (now : ℚ) (x : String), x ∈ sg.stuck_tasks →
      x ∈ ((check_stuck_tasks sg now).2).stuck_tasks := by
    intro sg now x hx
    exact foldl_checkStuckStep_mono now sg.monitored_tasks [] sg.stuck_tasks x hx
  refine ⟨?_, ?_, ?_, ?_, ?_, ?_⟩
  · intro sg now x hN
    obtain ⟨h1, _⟩ :=
      foldl_checkStuckStep_char now sg.monitored_tasks [] sg.stuck_tasks hN
    rw [show (check_stuck_tasks sg now).1 =
        (sg.monitored_tasks.foldl (checkStuckStep now) ([], sg.stuck_tasks)).1
      from rfl, h1 x]
    simp only [List.not_mem_nil, false_or]
    constructor
    · rintro ⟨m, hm, hc, hs⟩
      exact ⟨⟨m, (dictGet_eq_some_iff _ _ _ hN).mpr hm, hc⟩, hs⟩
    · rintro ⟨⟨m, hm, hc⟩, hs⟩
      exact ⟨m, (dictGet_eq_some_iff _ _ _ hN).mp hm, hc, hs⟩
  · intro sg now x hN
    obtain ⟨h1, h2⟩ :=
      foldl_checkStuckStep_char now sg.monitored_tasks [] sg.stuck_tasks hN
    rw [show ((check_stuck_tasks sg now).2).stuck_tasks =
        (sg.monitored_tasks.foldl (checkStuckStep now) ([], sg.stuck_tasks)).2
      from rfl, h2 x,
      show (check_stuck_tasks sg now).1 =
        (sg.monitored_tasks.foldl (checkStuckStep now) ([], sg.stuck_tasks)).1
      from rfl, h1 x]
    simp only [List.not_mem_nil, false_or]
  · intro sg x hx nows
    induction nows generalizing sg with
    | nil => exact hx
    | cons t nows ih =>
      rw [List.foldl_cons]
      exact ih _ (hsingle sg t x hx)
  · intro sg now x hx
    exact foldl_checkStuckStep_no_renew now sg.monitored_tasks [] sg.stuck_tasks x
      hx (List.not_mem_nil x)
  · intro sg now x hm
    obtain ⟨mon, hmon⟩ := Option.isSome_iff_exists.mp hm
    unfold update_progress
    rw [hmon]
    intro hmem
    exact ((mem_setRemove sg.stuck_tasks x x).mp hmem).2 rfl
  · intro sg x hm
    unfold complete_task
    rw [if_pos hm]
    intro hmem
    exact ((mem_setRemove sg.stuck_tasks x x).mp hmem).2 rfl

/-- Witness for C9 at a concrete guard monitoring `W` (registered at time 0,
checked at time 100, beyond the 60 s idle limit): the characterization applies,
and a progress call clears the flag. -/
theorem C9_witness :
    ((sgMonitorOne.monitored_tasks.map (fun p => p.1)).Nodup ∧
      (dictGet sgMonitorOne.monitored_tasks "W").isSome ∧
      "W" ∈ (check_stuck_tasks sgMonitorOne 100).1) ∧
    ("W" ∈ (check_stuck_tasks sgMonitorOne 100).1 ↔
      ((∃ m, dictGet sgMonitorOne.monitored_tasks "W" = some m ∧
          isStuckCond 100 m = true) ∧ "W" ∉ sgMonitorOne.stuck_tasks)) ∧
    "W" ∉ (update_progress sgMonitorOne 100 "W").stuck_tasks :=
  ⟨⟨by with_unfolding_all decide, by with_unfolding_all decide,
    by with_unfolding_all decide⟩,
   C9_stuck_flag_lifecycle.1 sgMonitorOne 100 "W" (by with_unfolding_all decide),
   C9_stuck_flag_lifecycle.2.2.2.2.1 sgMonitorOne 100 "W"
     (by with_unfolding_all decide)⟩

/-- *C10.* `create_task` registers the task with the stuck guard immediately at
admission with `last_progress` equal to the creation time and the default
`max_idle_time` of 60 s; hence a task that has received no progress or
completion call is returned by `check_stuck_tasks` at any time more than 60 s
after its creation, even though its status is still PENDING (it never started
running). -/
theorem C10_pending_task_flagged_after_idle :
    ∀ (o : Orchestrator) (now0 : ℚ) (tid name ttype : String)
      (prio : TaskPriority) (deps : List String) (cost : ℚ) (mr : Nat) (now : ℚ),
      ((o.stuck_guard.monitored_tasks.map (fun p => p.1)).Nodup) →
      tid ∉ o.stuck_guard.stuck_tasks →
      now - now0 > 60 →
      statusOf (create_task o now0 tid name ttype prio deps cost mr) tid =
        some TaskStatus.pending ∧
      tid ∈ (check_stuck_tasks
        (create_task o now0 tid name ttype prio deps cost mr).stuck_guard now).1 := by
  intro o now0 tid name ttype prio deps cost mr now hN hstuck hgap
  constructor
  · unfold statusOf create_task
    rw [dictGet_dictSet_self]
    rfl
  · have hN2 : ((dictSet o.stuck_guard.monitored_tasks tid
        { task_id := tid, start_time := now0, last_progress := now0,
          timeout_threshold := o.stuck_guard.default_timeout,
          max_idle_time := 60 }).map (fun p => p.1)).Nodup :=
      dictSet_keys_nodup _ _ _ hN
    obtain ⟨h1, _⟩ := foldl_checkStuckStep_char now
      (dictSet o.stuck_guard.monitored_tasks tid
        { task_id := tid, start_time := now0, last_progress := now0,
          timeout_threshold := o.stuck_guard.default_timeout,
          max_idle_time := 60 }) [] o.stuck_guard.stuck_tasks hN2
    have hmem := (dictGet_eq_some_iff _ tid
      ({ task_id := tid, start_time := now0, last_progress := now0,
         timeout_threshold := o.stuck_guard.default_timeout,
         max_idle_time := 60 } : TaskMonitor) hN2).mp (dictGet_dictSet_self _ _ _)
    have hcond : isStuckCond now
        { task_id := tid, start_time := now0, last_progress := now0,
          timeout_threshold := o.stuck_guard.default_timeout,
          max_idle_time := 60 } = true := by
      unfold isStuckCond
      rw [Bool.or_eq_true]
      exact Or.inr (decide_eq_true hgap)
    exact (h1 tid).mpr (Or.inr ⟨_, hmem, hcond, hstuck⟩)

/-- Witness for C10: a task created at time 0 on a fresh orchestrator is
still PENDING and is flagged stuck at time 100. -/
theorem C10_witness :
    ((((Orchestrator.init 1 0).stuck_guard.monitored_tasks.map
        (fun p => p.1)).Nodup ∧
      "P" ∉ (Orchestrator.init 1 0).stuck_guard.stuck_tasks ∧
      (100 : ℚ) - 0 > 60)) ∧
    (statusOf (create_task (Orchestrator.init 1 0) 0 "P" "P" "t" TaskPriority.medium
        [] 0 3) "P" = some TaskStatus.pending ∧
      "P" ∈ (check_stuck_tasks
        (create_task (Orchestrator.init 1 0) 0 "P" "P" "t" TaskPriority.medium
          [] 0 3).stuck_guard 100).1) :=
  ⟨⟨by with_unfolding_all decide, by with_unfolding_all decide,
    by with_unfolding_all decide⟩,
   C10_pending_task_flagged_after_idle (Orchestrator.init 1 0) 0 "P" "P" "t"
     TaskPriority.medium [] 0 3 100 (by with_unfolding_all decide)
     (by with_unfolding_all decide) (by with_unfolding_all decide)⟩

/-! ## Scheduler-selection lemmas (C8) -/

theorem insertByPriority_mem (t : Task) (l : List Task) (w : Task) :
    w ∈ insertByPriority t l ↔ (w = t ∨ w ∈ l) := by
  induction l with
  | nil => simp [insertByPriority]
  | cons u us ih =>
    unfold insertByPriority
    by_cases h : t.priority.value ≥ u.priority.value
    · rw [if_pos h]
      simp [List.mem_cons]
    · rw [if_neg h]
      rw [List.mem_cons, ih, List.mem_cons]
      tauto

theorem insertByPriority_pairwise (t : Task) (l : List Task)
    (hp : l.Pairwise (fun a b => b.priority.value ≤ a.priority.value)) :
    (insertByPriority t l).Pairwise
      (fun a b => b.priority.value ≤ a.priority.value) := by
  induction l with
  | nil => simp [insertByPriority]
  | cons u us ih =>
    rw [List.pairwise_cons] at hp
    obtain ⟨hu, hus⟩ := hp
    unfold insertByPriority
    by_cases h : t.priority.value ≥ u.priority.value
    · rw [if_pos h]
      rw [List.pairwise_cons]
      constructor
      · intro w hw
        rcases List.mem_cons.mp hw with rfl | hw2
        · exact h
        · exact le_trans (hu w hw2) h
      · rw [List.pairwise_cons]
        exact ⟨hu, hus⟩
    · rw [if_neg h]
      rw [List.pairwise_cons]
      constructor
      · intro w hw
        rcases (insertByPriority_mem t us w).mp hw with rfl | hw2
        · exact le_of_not_ge h
        · exact hu w hw2
      · exact ih hus

theorem insertByPriority_perm (t : Task) (l : List Task) :
    (insertByPriority t l).Perm (t :: l) := by
  induction l with
  | nil => exact List.Perm.refl _
  | cons u us ih =>
    unfold insertByPriority
    by_cases h : t.priority.value ≥ u.priority.value
    · rw [if_pos h]
    · rw [if_neg h]
      exact (List.Perm.cons u ih).trans (List.Perm.swap t u us)

theorem insertByPriority_filter (t : Task) (l : List Task) (p : Nat) :
    (insertByPriority t l).filter (fun u => u.priority.value = p) =
      if t.priority.value = p then
        t :: l.filter (fun u => u.priority.value = p)
      else l.filter (fun u => u.priority.value = p) := by
  induction l with
  | nil =>
    unfold insertByPriority
    by_cases h : t.priority.value = p <;> simp [h]
  | cons u us ih =>
    unfold insertByPriority
    by_cases h : t.priority.value ≥ u.priority.value
    · rw [if_pos h]
      by_cases ht : t.priority.value = p <;> simp [List.filter_cons, ht]
    · rw [if_neg h]
      by_cases ht : t.priority.value = p
      · have hu : ¬(u.priority.value = p) := by
          intro hup
          exact h (le_of_eq (hup.trans ht.symm))
        rw [if_pos ht] at ih ⊢
        simp only [List.filter_cons, hu, ih]
        simp
      · rw [if_neg ht] at ih ⊢
        simp only [List.filter_cons, ih]

theorem pendingSorted_pairwise (o : Orchestrator) :
    (pendingSorted o).Pairwise (fun a b => b.priority.value ≤ a.priority.value) := by
  unfold pendingSorted
  generalize ((o.tasks.map (fun p => p.2)).filter
    (fun t => t.status = TaskStatus.pending)) = l
  induction l with
  | nil => simp
  | cons t l ih =>
    rw [List.foldr_cons]
    exact insertByPriority_pairwise t _ ih

theorem pendingSorted_perm (o : Orchestrator) :
    (pendingSorted o).Perm
      ((o.tasks.map (fun p => p.2)).filter
        (fun t => t.status = TaskStatus.pending)) := by
  unfold pendingSorted
  generalize ((o.tasks.map (fun p => p.2)).filter
    (fun t => t.status = TaskStatus.pending)) = l
  induction l with
  | nil => exact List.Perm.refl _
  | cons t l ih =>
    rw [List.foldr_cons]
    exact (insertByPriority_perm t _).trans (List.Perm.cons t ih)

theorem pendingSorted_stable (o : Orchestrator) (p : Nat) :
    (pendingSorted o).filter (fun u => u.priority.value = p) =
      ((o.tasks.map (fun q => q.2)).filter
        (fun t => t.status = TaskStatus.pending)).filter
        (fun u => u.priority.value = p) := by
  unfold pendingSorted
  generalize ((o.tasks.map (fun q => q.2)).filter
    (fun t => t.status = TaskStatus.pending)) = l
  induction l with
  | nil => rfl
  | cons t l ih =>
    rw [List.foldr_cons, insertByPriority_filter, List.filter_cons]
    by_cases ht : t.priority.value = p <;> simp [ht, ih]

/-- *C8.* `_schedule_tasks` considers pending tasks in descending priority
(CRITICAL > HIGH > MEDIUM > LOW) with ties among equal priorities left in
registry (creation) order — the Python `sorted(..., reverse=True)` is stable —
and the sorted list is a permutation of the pending snapshot; selection is a
function of the task snapshot, so identical snapshots yield identical order;
in particular, on a cap-1 orchestrator holding a LOW task created before a
HIGH task, the single pass launches exactly the HIGH task first. -/
theorem C8_selection_deterministic_priority_order :
    (∀ o : Orchestrator, (pendingSorted o).Pairwise
      (fun a b => b.priority.value ≤ a.priority.value)) ∧
    (∀ o : Orchestrator, (pendingSorted o).Perm
      ((o.tasks.map (fun p => p.2)).filter
        (fun t => t.status = TaskStatus.pending))) ∧
    (∀ (o : Orchestrator) (p : Nat),
      (pendingSorted o).filter (fun u => u.priority.value = p) =
        ((o.tasks.map (fun q => q.2)).filter
          (fun t => t.status = TaskStatus.pending)).filter
          (fun u => u.priority.value = p)) ∧
    (∀ o1 o2 : Orchestrator, o1.tasks = o2.tasks →
      pendingSorted o1 = pendingSorted o2) ∧
    (pendingSorted oHighLow).map (fun t => t.id) = ["high", "low"] ∧
    (schedule_tasks oHighLow).2 = ["high"] :=
  ⟨pendingSorted_pairwise, pendingSorted_perm, pendingSorted_stable,
   fun o1 o2 h => by unfold pendingSorted; rw [h],
   by with_unfolding_all decide, by with_unfolding_all decide⟩

/-- Witness for C8: the determinism clause applied to the concrete two-task
snapshot. -/
theorem C8_witness :
    oHighLow.tasks = oHighLow.tasks ∧
    pendingSorted oHighLow = pendingSorted oHighLow :=
  ⟨rfl, C8_selection_deterministic_priority_order.2.2.2.1 oHighLow oHighLow rfl⟩

/-! ## Retry-loop claims (C1) -/

/-- *C1 counterexample.* Guarded trace of an always-raising handler with
`max_retries = 2` on a fresh orchestrator: after the first failed attempt the
task is PENDING with `retry_count = 1` (the single automatic re-entry); after
the second failed attempt it is FAILED with `retry_count = 2` and cannot be
started again — so the run contains exactly one transition back to PENDING,
not the two the claim asserts. -/
theorem C1_counterexample_single_pending_reentry :
    Reaches (Orchestrator.init 1 0) esTwoFails oTwoFails ∧
    statusOf oOneFail "X" = some TaskStatus.pending ∧
    retryCountOf oOneFail "X" = some 1 ∧
    statusOf oTwoFails "X" = some TaskStatus.failed ∧
    retryCountOf oTwoFails "X" = some 2 ∧
    guardOK oTwoFails (OrchEvent.execStartEv "X" 5) = false ∧
    ¬(statusOf oTwoFails "X" = some TaskStatus.pending) :=
  ⟨.cons (by with_unfolding_all decide) (.cons (by with_unfolding_all decide)
    (.cons (by with_unfolding_all decide) (.cons (by with_unfolding_all decide)
      (.cons (by with_unfolding_all decide) (.cons (by with_unfolding_all decide)
        (.nil _)))))),
   by with_unfolding_all decide, by with_unfolding_all decide,
   by with_unfolding_all decide, by with_unfolding_all decide,
   by with_unfolding_all decide, by with_unfolding_all decide⟩

/-- *C1 (amended).* For a task with `max_retries = 2`, `retry_count = 0` and no
estimated cost whose handler raises on both attempts: the first failure sends
it back to PENDING with `retry_count = 1` — exactly one automatic PENDING
re-entry — and the second failure makes it terminally FAILED with
`retry_count = 2`. -/
theorem C1_two_retries_one_reentry_then_failed :
    ∀ (o : Orchestrator) (tid : String) (t : Task) (now1 now2 now3 now4 : ℚ)
      (m1 m2 : String),
      dictGet o.tasks tid = some t →
      t.retry_count = 0 →
      t.max_retries = 2 →
      t.estimated_cost = 0 →
      (statusOf (executeStart o now1 tid) tid = some TaskStatus.running ∧
       statusOf (executeFinish (executeStart o now1 tid) now2 tid
         (HandlerOutcome.failure m1)) tid = some TaskStatus.pending ∧
       retryCountOf (executeFinish (executeStart o now1 tid) now2 tid
         (HandlerOutcome.failure m1)) tid = some 1 ∧
       statusOf (executeFinish (executeStart (executeFinish (executeStart o now1 tid)
           now2 tid (HandlerOutcome.failure m1)) now3 tid) now4 tid
         (HandlerOutcome.failure m2)) tid = some TaskStatus.failed ∧
       retryCountOf (executeFinish (executeStart (executeFinish (executeStart o now1 tid)
           now2 tid (HandlerOutcome.failure m1)) now3 tid) now4 tid
         (HandlerOutcome.failure m2)) tid = some 2) := by
  intro o tid t now1 now2 now3 now4 m1 m2 ht hrc hmr hcost
  simp [executeStart, executeFinish, executeCleanup, statusOf, retryCountOf, ht,
    dictGet_dictSet_self, hcost, hrc, hmr]

/-- Witness for C1: the amended statement applied to the concrete fresh task
`X` of `esTwoFails` (after registration and creation), failing at times 1-4. -/
theorem C1_witness :
    (dictGet (runEvents (Orchestrator.init 1 0) (esTwoFails.take 2)).tasks "X" =
      some { id := "X", name := "X", priority := TaskPriority.medium,
             status := TaskStatus.pending, created_at := 0, started_at := none,
             completed_at := none, dependencies := [], estimated_cost := 0,
             actual_cost := 0, max_retries := 2, retry_count := 0,
             task_type := "t", cost_category := none, error_message := none,
             result := none }) ∧
    (statusOf (executeStart (runEvents (Orchestrator.init 1 0) (esTwoFails.take 2))
        1 "X") "X" = some TaskStatus.running ∧
     statusOf (executeFinish (executeStart (runEvents (Orchestrator.init 1 0)
        (esTwoFails.take 2)) 1 "X") 2 "X" (HandlerOutcome.failure "boom")) "X" =
       some TaskStatus.pending ∧
     retryCountOf (executeFinish (executeStart (runEvents (Orchestrator.init 1 0)
        (esTwoFails.take 2)) 1 "X") 2 "X" (HandlerOutcome.failure "boom")) "X" =
       some 1 ∧
     statusOf (executeFinish (executeStart (executeFinish (executeStart
        (runEvents (Orchestrator.init 1 0) (esTwoFails.take 2)) 1 "X") 2 "X"
        (HandlerOutcome.failure "boom")) 3 "X") 4 "X"
        (HandlerOutcome.failure "boom")) "X" = some TaskStatus.failed ∧
     retryCountOf (executeFinish (executeStart (executeFinish (executeStart
        (runEvents (Orchestrator.init 1 0) (esTwoFails.take 2)) 1 "X") 2 "X"
        (HandlerOutcome.failure "boom")) 3 "X") 4 "X"
        (HandlerOutcome.failure "boom")) "X" = some 2) :=
  ⟨by with_unfolding_all decide,
   C1_two_retries_one_reentry_then_failed
     (runEvents (Orchestrator.init 1 0) (esTwoFails.take 2)) "X"
     { id := "X", name := "X", priority := TaskPriority.medium,
       status := TaskStatus.pending, created_at := 0, started_at := none,
       completed_at := none, dependencies := [], estimated_cost := 0,
       actual_cost := 0, max_retries := 2, retry_count := 0,
       task_type := "t", cost_category := none, error_message := none,
       result := none } 1 2 3 4 "boom" "boom"
     (by with_unfolding_all decide) rfl rfl rfl⟩

/-! ## Budget-gate claims (C7) -/

/-- *C7.* `record_cost` first applies the lazy reset and then approves iff the
(post-reset) usage plus the amount fits under the limit; an approved call
appends exactly one `CostEntry` and adds the amount to the usage; a rejected
call appends nothing, leaves the usage unchanged, and adds the supplied task
id to the paused set; and when `_execute_task` gets such a rejection for a task
with positive estimated cost, it sets the task to PAUSED with the budget error
message, records the pause, removes the task from the running set, and the
handler-outcome step can no longer fire (the handler is never invoked). -/
theorem C7_record_cost_gate_and_scheduler_pause :
    (∀ (g : CostGovernor) (now : ℚ) (cat : CostCategory) (a : ℚ) (d : String)
       (tid : Option String) (b : Budget),
      (resetBudgetIfNeeded g now cat).budgets cat = some b →
      ((record_cost g now cat a d tid).1 = true ↔ b.current_usage + a ≤ b.limit)) ∧
    (∀ (g : CostGovernor) (now : ℚ) (cat : CostCategory) (a : ℚ) (d : String)
       (tid : Option String) (b : Budget),
      (resetBudgetIfNeeded g now cat).budgets cat = some b →
      b.current_usage + a ≤ b.limit →
      (record_cost g now cat a d tid).2.cost_history =
        (resetBudgetIfNeeded g now cat).cost_history ++
          [{ timestamp := now, category := cat, amount := a, description := d,
             task_id := tid }] ∧
      ((record_cost g now cat a d tid).2.budgets cat).map Budget.current_usage =
        some (b.current_usage + a)) ∧
    (∀ (g : CostGovernor) (now : ℚ) (cat : CostCategory) (a : ℚ) (d : String)
       (tid : Option String) (b : Budget),
      (resetBudgetIfNeeded g now cat).budgets cat = some b →
      b.current_usage + a > b.limit →
      (record_cost g now cat a d tid).1 = false ∧
      (record_cost g now cat a d tid).2.cost_history =
        (resetBudgetIfNeeded g now cat).cost_history ∧
      (record_cost g now cat a d tid).2.budgets cat = some b ∧
      (∀ x, tid = some x → x ∈ (record_cost g now cat a d tid).2.paused_tasks)) ∧
    (∀ (o : Orchestrator) (now : ℚ) (tid : String) (t : Task) (b : Budget),
      dictGet o.tasks tid = some t →
      t.estimated_cost > 0 →
      (resetBudgetIfNeeded o.cost_governor now
          (t.cost_category.getD CostCategory.compute)).budgets
        (t.cost_category.getD CostCategory.compute) = some b →
      b.current_usage + t.estimated_cost > b.limit →
      statusOf (executeStart o now tid) tid = some TaskStatus.paused ∧
      (dictGet (executeStart o now tid).tasks tid).map Task.error_message =
        some (some "Task paused due to budget constraints") ∧
      tid ∈ (executeStart o now tid).cost_governor.paused_tasks ∧
      tid ∉ (executeStart o now tid).running_tasks ∧
      (∀ (now2 : ℚ) (outcome : HandlerOutcome),
        guardOK (executeStart o now tid)
          (OrchEvent.execFinishEv tid now2 outcome) = false)) := by
  refine ⟨record_cost_true_iff, ?_, ?_, ?_⟩
  · intro g now cat a d tid b hb hle
    rw [record_cost_approved_eq g now cat a d tid b hb hle]
    refine ⟨rfl, by simp⟩
  · intro g now cat a d tid b hb hgt
    exact record_cost_rejected g now cat a d tid b hb hgt
  · intro o now tid t b ht hcost hb hgt
    obtain ⟨hf, _, _, hpause⟩ := record_cost_rejected o.cost_governor now
      (t.cost_category.getD CostCategory.compute) t.estimated_cost
      ("Task: " ++ t.name) (some tid) b hb hgt
    refine ⟨?_, ?_, ?_, ?_, ?_⟩
    · simp only [executeStart, ht, hcost, if_true, hf, Bool.false_eq_true,
        if_false, executeCleanup, statusOf, dictGet_dictSet_self]
      rfl
    · simp only [executeStart, ht, hcost, if_true, hf, Bool.false_eq_true,
        if_false, executeCleanup, dictGet_dictSet_self]
      rfl
    · simp only [executeStart, ht, hcost, if_true, hf, Bool.false_eq_true,
        if_false, executeCleanup]
      exact hpause tid rfl
    · simp only [executeStart, ht, hcost, if_true, hf, Bool.false_eq_true,
        if_false, executeCleanup]
      intro hmem
      exact ((mem_setRemove _ tid tid).mp hmem).2 rfl
    · intro now2 outcome
      simp only [guardOK, executeStart, ht, hcost, if_true, hf, Bool.false_eq_true,
        if_false, executeCleanup, statusOf, dictGet_dictSet_self]
      rfl

/-- Witness for C7: scenario 2 — task `X` with estimated cost 150 against the
default COMPUTE budget of limit 50: the rejection pauses the task and records
its id in the paused set. -/
theorem C7_witness :
    (dictGet oCostReject.tasks "X" =
        some { id := "X", name := "X", priority := TaskPriority.medium,
               status := TaskStatus.pending, created_at := 0, started_at := none,
               completed_at := none, dependencies := [], estimated_cost := 150,
               actual_cost := 0, max_retries := 3, retry_count := 0,
               task_type := "t", cost_category := none, error_message := none,
               result := none } ∧
      ((0 : ℚ) + 150 > 50)) ∧
    (statusOf (executeStart oCostReject 1 "X") "X" = some TaskStatus.paused ∧
      "X" ∈ (executeStart oCostReject 1 "X").cost_governor.paused_tasks) :=
  ⟨⟨by with_unfolding_all decide, by with_unfolding_all decide⟩,
   (C7_record_cost_gate_and_scheduler_pause.2.2.2 oCostReject 1 "X"
     { id := "X", name := "X", priority := TaskPriority.medium,
       status := TaskStatus.pending, created_at := 0, started_at := none,
       completed_at := none, dependencies := [], estimated_cost := 150,
       actual_cost := 0, max_retries := 3, retry_count := 0,
       task_type := "t", cost_category := none, error_message := none,
       result := none }
     { category := CostCategory.compute, limit := 50, period_seconds := 86400,
       current_usage := 0, last_reset := 0 }
     (by with_unfolding_all decide) (by with_unfolding_all decide)
     (by with_unfolding_all rfl) (by with_unfolding_all decide)).1,
   (C7_record_cost_gate_and_scheduler_pause.2.2.2 oCostReject 1 "X"
     { id := "X", name := "X", priority := TaskPriority.medium,
       status := TaskStatus.pending, created_at := 0, started_at := none,
       completed_at := none, dependencies := [], estimated_cost := 150,
       actual_cost := 0, max_retries := 3, retry_count := 0,
       task_type := "t", cost_category := none, error_message := none,
       result := none }
     { category := CostCategory.compute, limit := 50, period_seconds := 86400,
       current_usage := 0, last_reset := 0 }
     (by with_unfolding_all decide) (by with_unfolding_all decide)
     (by with_unfolding_all rfl) (by with_unfolding_all decide)).2.2.1⟩

/-! ## Per-event task analysis (C2, C6) -/

/-- Exhaustive description of what one guarded orchestrator event can do to
one task record: leave it unchanged, start it (PENDING → RUNNING), pause it on
budget rejection, complete it, retry it (the RUNNING → PENDING edge, only while
the incremented counter is under the limit), fail it permanently (counter at or
over the limit), cancel it (the `cancel_task` overwrite, any prior status), or
force-fail it on a stuck timeout. -/
theorem applyEvent_task_cases (o : Orchestrator) (e : OrchEvent) (tid : String)
    (t t2 : Task) (hg : guardOK o e = true) (ht : dictGet o.tasks tid = some t)
    (h2 : dictGet (applyEvent o e).tasks tid = some t2) :
    t2 = t ∨
    (∃ now, t.status = TaskStatus.pending ∧
      t2 = { t with status := TaskStatus.running, started_at := some now }) ∨
    (∃ now, t.status = TaskStatus.pending ∧
      t2 = { t with
              status := TaskStatus.paused
              started_at := some now
              error_message := some "Task paused due to budget constraints" }) ∨
    (∃ now r, t.status = TaskStatus.running ∧
      t2 = { t with
              result := some r
              status := TaskStatus.completed
              completed_at := some now }) ∨
    (∃ msg, t.status = TaskStatus.running ∧ t.retry_count + 1 < t.max_retries ∧
      t2 = { t with
              error_message := some msg
              retry_count := t.retry_count + 1
              status := TaskStatus.pending }) ∨
    (∃ msg, t.status = TaskStatus.running ∧ ¬(t.retry_count + 1 < t.max_retries) ∧
      t2 = { t with
              error_message := some msg
              retry_count := t.retry_count + 1
              status := TaskStatus.failed }) ∨
    (e = OrchEvent.cancelEv tid ∧ t2 = { t with status := TaskStatus.cancelled }) ∨
    (t.status = TaskStatus.running ∧
      t2 = { t with
              status := TaskStatus.failed
              error_message := some "Task cancelled due to timeout" }) := by
  cases e with
  | registerHandler ttype =>
    left
    have h3 : dictGet o.tasks tid = some t2 := h2
    exact (Option.some.inj (ht.symm.trans h3)).symm
  | pauseEv =>
    left
    have h3 : dictGet o.tasks tid = some t2 := h2
    exact (Option.some.inj (ht.symm.trans h3)).symm
  | resumeEv =>
    left
    have h3 : dictGet o.tasks tid = some t2 := h2
    exact (Option.some.inj (ht.symm.trans h3)).symm
  | schedulePassEv =>
    left
    have h3 : dictGet ((scheduleLoop o (pendingSorted o)).1).tasks tid = some t2 := h2
    rw [scheduleLoop_tasks] at h3
    exact (Option.some.inj (ht.symm.trans h3)).symm
  | createTaskEv tid2 name ttype prio deps cost mr now =>
    left
    simp only [guardOK] at hg
    by_cases he : tid = tid2
    · subst he
      rw [ht] at hg
      simp at hg
    · simp only [applyEvent, create_task] at h2
      rw [dictGet_dictSet_ne _ _ _ _ he, ht] at h2
      exact (Option.some.inj h2).symm
  | execStartEv tid2 now =>
    simp only [guardOK] at hg
    by_cases he : tid = tid2
    · subst he
      rw [beq_iff_eq, statusOf, ht] at hg
      have hst : t.status = TaskStatus.pending := by
        simpa using hg
      simp only [applyEvent, executeStart, ht] at h2
      split at h2
      · split at h2
        · rw [dictGet_dictSet_self] at h2
          exact Or.inr (Or.inl ⟨now, hst, (Option.some.inj h2).symm⟩)
        · simp only [executeCleanup] at h2
          rw [dictGet_dictSet_self] at h2
          exact Or.inr (Or.inr (Or.inl ⟨now, hst, (Option.some.inj h2).symm⟩))
      · rw [dictGet_dictSet_self] at h2
        exact Or.inr (Or.inl ⟨now, hst, (Option.some.inj h2).symm⟩)
    · left
      simp only [applyEvent, executeStart] at h2
      cases hlook : dictGet o.tasks tid2 with
      | none =>
        rw [hlook] at h2
        exact (Option.some.inj (ht.symm.trans h2)).symm
      | some tother =>
        rw [hlook] at h2
        simp only at h2
        split at h2
        · split at h2
          · rw [dictGet_dictSet_ne _ _ _ _ he, ht] at h2
            exact (Option.some.inj h2).symm
          · simp only [executeCleanup] at h2
            rw [dictGet_dictSet_ne _ _ _ _ he, dictGet_dictSet_ne _ _ _ _ he,
              ht] at h2
            exact (Option.some.inj h2).symm
        · rw [dictGet_dictSet_ne _ _ _ _ he, ht] at h2
          exact (Option.some.inj h2).symm
  | execFinishEv tid2 now outcome =>
    simp only [guardOK] at hg
    by_cases he : tid = tid2
    · subst he
      rw [beq_iff_eq, statusOf, ht] at hg
      have hst : t.status = TaskStatus.running := by
        simpa using hg
      cases outcome with
      | success r =>
        simp only [applyEvent, executeFinish, ht, executeCleanup] at h2
        rw [dictGet_dictSet_self] at h2
        exact Or.inr (Or.inr (Or.inr (Or.inl ⟨now, r, hst, (Option.some.inj h2).symm⟩)))
      | failure msg =>
        simp only [applyEvent, executeFinish, ht, executeCleanup] at h2
        split at h2
        · next hlt =>
          rw [dictGet_dictSet_self] at h2
          exact Or.inr (Or.inr (Or.inr (Or.inr (Or.inl
            ⟨msg, hst, hlt, (Option.some.inj h2).symm⟩))))
        · next hlt =>
          rw [dictGet_dictSet_self] at h2
          exact Or.inr (Or.inr (Or.inr (Or.inr (Or.inr (Or.inl
            ⟨msg, hst, hlt, (Option.some.inj h2).symm⟩)))))
    · left
      simp only [applyEvent, executeFinish] at h2
      cases hlook : dictGet o.tasks tid2 with
      | none =>
        rw [hlook] at h2
        exact (Option.some.inj (ht.symm.trans h2)).symm
      | some tother =>
        rw [hlook] at h2
        simp only at h2
        cases outcome with
        | success r =>
          simp only [executeCleanup] at h2
          rw [dictGet_dictSet_ne _ _ _ _ he, ht] at h2
          exact (Option.some.inj h2).symm
        | failure msg =>
          simp only [executeCleanup] at h2
          split at h2 <;>
          · rw [dictGet_dictSet_ne _ _ _ _ he, ht] at h2
            exact (Option.some.inj h2).symm
  | cancelEv tid2 =>
    by_cases he : tid = tid2
    · subst he
      simp only [applyEvent, cancel_task, ht] at h2
      rw [dictGet_dictSet_self] at h2
      exact Or.inr (Or.inr (Or.inr (Or.inr (Or.inr (Or.inr (Or.inl
        ⟨rfl, (Option.some.inj h2).symm⟩))))))
    · left
      simp only [applyEvent, cancel_task] at h2
      cases hlook : dictGet o.tasks tid2 with
      | none =>
        rw [hlook] at h2
        exact (Option.some.inj (ht.symm.trans h2)).symm
      | some tother =>
        rw [hlook] at h2
        simp only at h2
        rw [dictGet_dictSet_ne _ _ _ _ he, ht] at h2
        exact (Option.some.inj h2).symm
  | stuckCancelEv tid2 =>
    simp only [guardOK] at hg
    by_cases he : tid = tid2
    · subst he
      rw [beq_iff_eq, statusOf, ht] at hg
      have hst : t.status = TaskStatus.running := by
        simpa using hg
      simp only [applyEvent, stuck_cancel] at h2
      split at h2
      · rw [ht] at h2
        simp only at h2
        rw [dictGet_dictSet_self] at h2
        exact Or.inr (Or.inr (Or.inr (Or.inr (Or.inr (Or.inr (Or.inr
          ⟨hst, (Option.some.inj h2).symm⟩))))))
      · left
        exact (Option.some.inj (ht.symm.trans h2)).symm
    · left
      simp only [applyEvent, stuck_cancel] at h2
      split at h2
      · cases hlook : dictGet o.tasks tid2 with
        | none =>
          rw [hlook] at h2
          exact (Option.some.inj (ht.symm.trans h2)).symm
        | some tother =>
          rw [hlook] at h2
          simp only at h2
          rw [dictGet_dictSet_ne _ _ _ _ he, ht] at h2
          exact (Option.some.inj h2).symm
      · exact (Option.some.inj (ht.symm.trans h2)).symm

/-- A guarded event can only put a task under an id that had none before via
`create_task`, and the created record is fresh: PENDING with a zero retry
counter. -/
theorem applyEvent_fresh_task (o : Orchestrator) (e : OrchEvent) (tid : String)
    (t2 : Task) (hg : guardOK o e = true) (hnone : dictGet o.tasks tid = none)
    (h2 : dictGet (applyEvent o e).tasks tid = some t2) :
    t2.retry_count = 0 ∧ t2.status = TaskStatus.pending := by
  cases e with
  | registerHandler ttype =>
    have h3 : dictGet o.tasks tid = some t2 := h2
    rw [hnone] at h3
    cases h3
  | pauseEv =>
    have h3 : dictGet o.tasks tid = some t2 := h2
    rw [hnone] at h3
    cases h3
  | resumeEv =>
    have h3 : dictGet o.tasks tid = some t2 := h2
    rw [hnone] at h3
    cases h3
  | schedulePassEv =>
    have h3 : dictGet ((scheduleLoop o (pendingSorted o)).1).tasks tid = some t2 := h2
    rw [scheduleLoop_tasks, hnone] at h3
    cases h3
  | createTaskEv tid2 name ttype prio deps cost mr now =>
    by_cases he : tid = tid2
    · subst he
      simp only [applyEvent, create_task] at h2
      rw [dictGet_dictSet_self] at h2
      rw [← Option.some.inj h2]
      exact ⟨rfl, rfl⟩
    · simp only [applyEvent, create_task] at h2
      rw [dictGet_dictSet_ne _ _ _ _ he, hnone] at h2
      cases h2
  | execStartEv tid2 now =>
    by_cases he : tid = tid2
    · subst he
      simp [guardOK, statusOf, hnone] at hg
    · simp only [applyEvent, executeStart] at h2
      cases hlook : dictGet o.tasks tid2 with
      | none =>
        rw [hlook] at h2
        rw [hnone] at h2
        cases h2
      | some tother =>
        rw [hlook] at h2
        simp only at h2
        split at h2
        · split at h2
          · rw [dictGet_dictSet_ne _ _ _ _ he, hnone] at h2
            cases h2
          · simp only [executeCleanup] at h2
            rw [dictGet_dictSet_ne _ _ _ _ he, dictGet_dictSet_ne _ _ _ _ he,
              hnone] at h2
            cases h2
        · rw [dictGet_dictSet_ne _ _ _ _ he, hnone] at h2
          cases h2
  | execFinishEv tid2 now outcome =>
    by_cases he : tid = tid2
    · subst he
      simp [guardOK, statusOf, hnone] at hg
    · simp only [applyEvent, executeFinish] at h2
      cases hlook : dictGet o.tasks tid2 with
      | none =>
        rw [hlook] at h2
        rw [hnone] at h2
        cases h2
      | some tother =>
        rw [hlook] at h2
        simp only at h2
        cases outcome with
        | success r =>
          simp only [executeCleanup] at h2
          rw [dictGet_dictSet_ne _ _ _ _ he, hnone] at h2
          cases h2
        | failure msg =>
          simp only [executeCleanup] at h2
          split at h2 <;>
          · rw [dictGet_dictSet_ne _ _ _ _ he, hnone] at h2
            cases h2
  | cancelEv tid2 =>
    by_cases he : tid = tid2
    · subst he
      simp only [applyEvent, cancel_task, hnone] at h2
      cases h2
    · simp only [applyEvent, cancel_task] at h2
      cases hlook : dictGet o.tasks tid2 with
      | none =>
        rw [hlook] at h2
        rw [hnone] at h2
        cases h2
      | some tother =>
        rw [hlook] at h2
        simp only at h2
        rw [dictGet_dictSet_ne _ _ _ _ he, hnone] at h2
        cases h2
  | stuckCancelEv tid2 =>
    by_cases he : tid = tid2
    · subst he
      simp [guardOK, statusOf, hnone] at hg
    · simp only [applyEvent, stuck_cancel] at h2
      split at h2
      · cases hlook : dictGet o.tasks tid2 with
        | none =>
          rw [hlook] at h2
          rw [hnone] at h2
          cases h2
        | some tother =>
          rw [hlook] at h2
          simp only at h2
          rw [dictGet_dictSet_ne _ _ _ _ he, hnone] at h2
          cases h2
      · rw [hnone] at h2
        cases h2

/-- One guarded event preserves the retry/status invariant of every task. -/
theorem applyEvent_preserves_TaskInv (o : Orchestrator) (e : OrchEvent)
    (hg : guardOK o e = true)
    (hall : ∀ tid t, dictGet o.tasks tid = some t → TaskInv t) :
    ∀ tid t2, dictGet (applyEvent o e).tasks tid = some t2 → TaskInv t2 := by
  intro tid t2 h2
  cases hlook : dictGet o.tasks tid with
  | none =>
    obtain ⟨hrc, _⟩ := applyEvent_fresh_task o e tid t2 hg hlook h2
    exact ⟨by rw [hrc]; exact Nat.zero_le _, fun _ => Or.inl hrc⟩
  | some t =>
    have hinv := hall tid t hlook
    rcases applyEvent_task_cases o e tid t t2 hg hlook h2 with
      rfl | ⟨now, hst, rfl⟩ | ⟨now, hst, rfl⟩ | ⟨now, r, hst, rfl⟩ |
      ⟨msg, hst, hlt, rfl⟩ | ⟨msg, hst, hlt, rfl⟩ | ⟨heq, rfl⟩ | ⟨hst, rfl⟩
    · exact hinv
    · exact ⟨hinv.1, fun _ => hinv.2 (Or.inl hst)⟩
    · exact ⟨hinv.1, fun hc => by simp at hc⟩
    · exact ⟨hinv.1, fun hc => by simp at hc⟩
    · refine ⟨le_trans (Nat.le_of_lt hlt) (le_max_left _ _), fun _ => Or.inr hlt⟩
    · refine ⟨?_, fun hc => by simp at hc⟩
      rcases hinv.2 (Or.inr hst) with h0 | hlt2
      · rw [h0]
        exact le_max_right _ _
      · exact le_trans (Nat.succ_le_of_lt hlt2) (le_max_left _ _)
    · exact ⟨hinv.1, fun hc => by simp at hc⟩
    · exact ⟨hinv.1, fun hc => by simp at hc⟩

/-- The retry/status invariant holds in every state reachable by guarded
events from a state where it holds. -/
theorem reaches_TaskInv (o o2 : Orchestrator) (es : List OrchEvent)
    (h : Reaches o es o2)
    (hall : ∀ tid t, dictGet o.tasks tid = some t → TaskInv t) :
    ∀ tid t, dictGet o2.tasks tid = some t → TaskInv t := by
  induction h with
  | nil => exact hall
  | cons hgd hr ih => exact ih (applyEvent_preserves_TaskInv _ _ hgd hall)

/-- *C2 counterexample.* A task driven to COMPLETED through a guarded trace is
then cancelled: `cancel_task` returns `True` and overwrites the terminal
COMPLETED status with CANCELLED — it is not a no-op on already-terminal
tasks. -/
theorem C2_counterexample_cancel_overwrites_terminal :
    Reaches (Orchestrator.init 1 0) esCompleted oCompleted ∧
    statusOf oCompleted "A" = some TaskStatus.completed ∧
    (cancel_task oCompleted "A").1 = true ∧
    statusOf (cancel_task oCompleted "A").2 "A" = some TaskStatus.cancelled ∧
    ¬(statusOf (cancel_task oCompleted "A").2 "A" = statusOf oCompleted "A") :=
  ⟨.cons (by with_unfolding_all decide) (.cons (by with_unfolding_all decide)
    (.cons (by with_unfolding_all decide) (.cons (by with_unfolding_all decide)
      (.nil _)))),
   by with_unfolding_all decide, by with_unfolding_all decide,
   by with_unfolding_all decide, by with_unfolding_all decide⟩

/-- *C2 (amended).* Under every guarded orchestrator event, a task's status
either stays, moves forward along PENDING → RUNNING → past-RUNNING
(PAUSED/COMPLETED/FAILED/CANCELLED), or takes the RUNNING → PENDING retry
edge — with the single further exception of `cancel_task`, which sets the
status of a known id to CANCELLED whatever it was (terminal included) and
returns `True`; `cancel_task` on an unknown id returns `False` and changes
nothing. -/
theorem C2_status_forward_except_retry_and_cancel :
    (∀ (o : Orchestrator) (e : OrchEvent) (tid : String) (t t2 : Task),
      guardOK o e = true →
      dictGet o.tasks tid = some t →
      dictGet (applyEvent o e).tasks tid = some t2 →
      (t2.status = t.status ∨
       statusRank t.status < statusRank t2.status ∨
       (t.status = TaskStatus.running ∧ t2.status = TaskStatus.pending) ∨
       (e = OrchEvent.cancelEv tid ∧ t2.status = TaskStatus.cancelled))) ∧
    (∀ (o : Orchestrator) (tid : String),
      dictGet o.tasks tid = none → cancel_task o tid = (false, o)) ∧
    (∀ (o : Orchestrator) (tid : String) (t : Task),
      dictGet o.tasks tid = some t →
      (cancel_task o tid).1 = true ∧
      statusOf (cancel_task o tid).2 tid = some TaskStatus.cancelled) := by
  refine ⟨?_, ?_, ?_⟩
  · intro o e tid t t2 hg ht h2
    rcases applyEvent_task_cases o e tid t t2 hg ht h2 with
      rfl | ⟨now, hst, rfl⟩ | ⟨now, hst, rfl⟩ | ⟨now, r, hst, rfl⟩ |
      ⟨msg, hst, hlt, rfl⟩ | ⟨msg, hst, hlt, rfl⟩ | ⟨heq, rfl⟩ | ⟨hst, rfl⟩
    · exact Or.inl rfl
    · refine Or.inr (Or.inl ?_)
      rw [hst]
      show statusRank TaskStatus.pending < statusRank TaskStatus.running
      decide
    · refine Or.inr (Or.inl ?_)
      rw [hst]
      show statusRank TaskStatus.pending < statusRank TaskStatus.paused
      decide
    · refine Or.inr (Or.inl ?_)
      rw [hst]
      show statusRank TaskStatus.running < statusRank TaskStatus.completed
      decide
    · exact Or.inr (Or.inr (Or.inl ⟨hst, rfl⟩))
    · refine Or.inr (Or.inl ?_)
      rw [hst]
      show statusRank TaskStatus.running < statusRank TaskStatus.failed
      decide
    · exact Or.inr (Or.inr (Or.inr ⟨heq, rfl⟩))
    · refine Or.inr (Or.inl ?_)
      rw [hst]
      show statusRank TaskStatus.running < statusRank TaskStatus.failed
      decide
  · intro o tid h
    simp only [cancel_task, h]
  · intro o tid t ht
    simp only [cancel_task, ht]
    constructor
    · first | rfl | trivial
    · simp only [statusOf, dictGet_dictSet_self]
      rfl

/-- Witness for C2: the per-event clause applied to the concrete cancellation
of the COMPLETED task `A`, and the known/unknown-id clauses of `cancel_task`
at concrete inputs. -/
theorem C2_witness :
    (guardOK oCompleted (OrchEvent.cancelEv "A") = true ∧
      dictGet oCompleted.tasks "A" =
        some { id := "A", name := "A", priority := TaskPriority.medium,
               status := TaskStatus.completed, created_at := 0,
               started_at := some 1, completed_at := some 2, dependencies := [],
               estimated_cost := 0, actual_cost := 0, max_retries := 3,
               retry_count := 0, task_type := "t", cost_category := none,
               error_message := none, result := some "ok" } ∧
      dictGet (applyEvent oCompleted (OrchEvent.cancelEv "A")).tasks "A" =
        some { id := "A", name := "A", priority := TaskPriority.medium,
               status := TaskStatus.cancelled, created_at := 0,
               started_at := some 1, completed_at := some 2, dependencies := [],
               estimated_cost := 0, actual_cost := 0, max_retries := 3,
               retry_count := 0, task_type := "t", cost_category := none,
               error_message := none, result := some "ok" }) ∧
    (TaskStatus.cancelled = TaskStatus.completed ∨
      statusRank TaskStatus.completed < statusRank TaskStatus.cancelled ∨
      (TaskStatus.completed = TaskStatus.running ∧
        TaskStatus.cancelled = TaskStatus.pending) ∨
      (OrchEvent.cancelEv "A" = OrchEvent.cancelEv "A" ∧
        TaskStatus.cancelled = TaskStatus.cancelled)) ∧
    cancel_task oCompleted "missing" = (false, oCompleted) :=
  ⟨⟨by with_unfolding_all decide, by with_unfolding_all decide,
    by with_unfolding_all decide⟩,
   C2_status_forward_except_retry_and_cancel.1 oCompleted
     (OrchEvent.cancelEv "A") "A"
     { id := "A", name := "A", priority := TaskPriority.medium,
       status := TaskStatus.completed, created_at := 0, started_at := some 1,
       completed_at := some 2, dependencies := [], estimated_cost := 0,
       actual_cost := 0, max_retries := 3, retry_count := 0, task_type := "t",
       cost_category := none, error_message := none, result := some "ok" }
     { id := "A", name := "A", priority := TaskPriority.medium,
       status := TaskStatus.cancelled, created_at := 0, started_at := some 1,
       completed_at := some 2, dependencies := [], estimated_cost := 0,
       actual_cost := 0, max_retries := 3, retry_count := 0, task_type := "t",
       cost_category := none, error_message := none, result := some "ok" }
     (by with_unfolding_all decide) (by with_unfolding_all decide)
     (by with_unfolding_all decide),
   C2_status_forward_except_retry_and_cancel.2.1 oCompleted "missing"
     (by with_unfolding_all decide)⟩

/-- *C6 counterexample.* Guarded trace with `max_retries = 0` and one failing
attempt: the task ends FAILED with `retry_count = 1 > 0 = max_retries`, so
`retry_count <= max_retries` does not hold for `max_retries = 0`. -/
theorem C6_counterexample_zero_max_retries :
    Reaches (Orchestrator.init 1 0) esZeroRetries oZeroRetries ∧
    retryCountOf oZeroRetries "Z" = some 1 ∧
    (dictGet oZeroRetries.tasks "Z").map Task.max_retries = some 0 ∧
    (dictGet oZeroRetries.tasks "Z").map
      (fun t => decide (t.retry_count ≤ t.max_retries)) = some false :=
  ⟨.cons (by with_unfolding_all decide) (.cons (by with_unfolding_all decide)
    (.cons (by with_unfolding_all decide) (.cons (by with_unfolding_all decide)
      (.nil _)))),
   by with_unfolding_all decide, by with_unfolding_all decide,
   by with_unfolding_all decide⟩

/-- *C6 (amended).* In every state reachable by guarded events from a fresh
orchestrator, every task satisfies `retry_count ≤ max max_retries 1`; in
particular `retry_count ≤ max_retries` whenever `max_retries ≥ 1`.  (For
`max_retries = 0` a single handler failure yields `retry_count = 1`.) -/
theorem C6_retry_bound_reachable :
    ∀ (n : Nat) (now0 : ℚ) (es : List OrchEvent) (o2 : Orchestrator),
      Reaches (Orchestrator.init n now0) es o2 →
      ∀ (tid : String) (t : Task), dictGet o2.tasks tid = some t →
        t.retry_count ≤ max t.max_retries 1 ∧
        (1 ≤ t.max_retries → t.retry_count ≤ t.max_retries) := by
  intro n now0 es o2 h tid t ht
  have hinv := reaches_TaskInv _ _ _ h
    (by intro tid2 t2 h0; simp [dictGet, Orchestrator.init] at h0) tid t ht
  refine ⟨hinv.1, fun hm => ?_⟩
  have h1 := hinv.1
  rwa [Nat.max_eq_left hm] at h1

/-- Witness for C6: the bound applied to the final state of the two-failure
trace (`max_retries = 2`, final `retry_count = 2`). -/
theorem C6_witness :
    (Reaches (Orchestrator.init 1 0) esTwoFails oTwoFails ∧
      dictGet oTwoFails.tasks "X" =
        some { id := "X", name := "X", priority := TaskPriority.medium,
               status := TaskStatus.failed, created_at := 0,
               started_at := some 3, completed_at := none, dependencies := [],
               estimated_cost := 0, actual_cost := 0, max_retries := 2,
               retry_count := 2, task_type := "t", cost_category := none,
               error_message := some "boom", result := none }) ∧
    ((2 : Nat) ≤ max 2 1 ∧ (1 ≤ 2 → (2 : Nat) ≤ 2)) :=
  ⟨⟨.cons (by with_unfolding_all decide) (.cons (by with_unfolding_all decide)
      (.cons (by with_unfolding_all decide) (.cons (by with_unfolding_all decide)
        (.cons (by with_unfolding_all decide) (.cons (by with_unfolding_all decide)
          (.nil _)))))),
    by with_unfolding_all decide⟩,
   C6_retry_bound_reachable 1 0 esTwoFails oTwoFails
     (.cons (by with_unfolding_all decide) (.cons (by with_unfolding_all decide)
       (.cons (by with_unfolding_all decide) (.cons (by with_unfolding_all decide)
         (.cons (by with_unfolding_all decide) (.cons (by with_unfolding_all decide)
           (.nil _)))))))
     "X"
     { id := "X", name := "X", priority := TaskPriority.medium,
       status := TaskStatus.failed, created_at := 0, started_at := some 3,
       completed_at := none, dependencies := [], estimated_cost := 0,
       actual_cost := 0, max_retries := 2, retry_count := 2, task_type := "t",
       cost_category := none, error_message := some "boom", result := none }
     (by with_unfolding_all decide)⟩

end ProofStamp
